import Mathlib

/-!
# MatLab-cpp (`matplot`): a verification development

Shallow embedding of `src/matlab.hpp`.

Modelling conventions
* `float` values are exact rationals (`ℚ`): no rounding, no NaN/infinite samples.
  The one division whose divisor the code does not guard (`dataWidth / dataHeight`
  in `Axes::draw`) is modelled with its IEEE-754 outcome (`FloatVal`). Where binary32
  rounding decides a statement, the lines are embedded again with rounding
  (`roundF32`, `marginRangeF32`, `LinePlot.appendDataF32`, `Color.fromHSVF32`).
* `std::vector<float>` is `List ℚ`, `size_t` is `Nat`.
* `std::shared_ptr<Axes>` is `Option Nat` (`none` is the null pointer), resolved
  in a heap `Nat → Option Axes`; `std::weak_ptr<Axes>` is expired when the heap
  has no object at that handle.
* undefined behaviour (null dereference, dereferencing an end iterator, an
  iterator range before `begin()`) makes an operation return `none`.
* OpenGL calls are recorded as a list of `GLCmd`.
-/

namespace matplot

/-! ## Color, enums -/

/-- Struct `Color`: four channels; the constructor defaults are opaque black. -/
structure Color where
  r : ℚ
  g : ℚ
  b : ℚ
  a : ℚ
deriving DecidableEq, Repr

/-- Preset `Color::Red()`. -/
def Color.Red : Color := ⟨1, 0, 0, 1⟩
/-- Preset `Color::Green()`. -/
def Color.Green : Color := ⟨0, 1, 0, 1⟩
/-- Preset `Color::Blue()`. -/
def Color.Blue : Color := ⟨0, 0, 1, 1⟩
/-- Preset `Color::Black()`. -/
def Color.Black : Color := ⟨0, 0, 0, 1⟩
/-- Preset `Color::White()`. -/
def Color.White : Color := ⟨1, 1, 1, 1⟩

/-- Enum `LineStyle`. -/
inductive LineStyle
  | LINE_SOLID
  | LINE_DASHED
  | LINE_DOTTED
  | LINE_DASH_DOT
deriving DecidableEq, Repr

/-- Enum `MarkerStyle`. -/
inductive MarkerStyle
  | MARKER_NONE
  | MARKER_CIRCLE
  | MARKER_SQUARE
  | MARKER_TRIANGLE
  | MARKER_CROSS
  | MARKER_PLUS
deriving DecidableEq, Repr

/-! ## Axes (data part) -/

/-- Class `Axes`: the data range, the display metadata and the children, which are
handles (`shared_ptr<PlotObject>`) into the list of plot objects of a `World`.
The field defaults are those of the C++ member initialisers. -/
structure Axes where
  dataXMin : ℚ := -10
  dataXMax : ℚ := 10
  dataYMin : ℚ := -10
  dataYMax : ℚ := 10
  title : String := ""
  xLabel : String := ""
  yLabel : String := ""
  gridEnabled : Bool := true
  backgroundColor : Color := Color.White
  children : List Nat := []
deriving DecidableEq, Repr

/-- Method `Axes::setDataRange`. -/
def Axes.setDataRange (self : Axes) (xMin xMax yMin yMax : ℚ) : Axes :=
  { self with dataXMin := xMin, dataXMax := xMax, dataYMin := yMin, dataYMax := yMax }

/-- Method `Axes::addPlotObject`: `children.push_back(obj)`. -/
def Axes.addPlotObject (self : Axes) (obj : Nat) : Axes :=
  { self with children := self.children ++ [obj] }

/-- The four numbers `(dataXMin, dataXMax, dataYMin, dataYMax)` of an Axes. -/
def Axes.range (self : Axes) : ℚ × ℚ × ℚ × ℚ :=
  (self.dataXMin, self.dataXMax, self.dataYMin, self.dataYMax)

/-- The heap of `Axes` objects: `none` at a handle means no live object there. -/
abbrev AxesHeap := Nat → Option Axes

/-- Store `a` at handle `id`. -/
def AxesHeap.set (h : AxesHeap) (id : Nat) (a : Axes) : AxesHeap :=
  fun j => if j = id then some a else h j

/-- Test `weak_ptr::expired()`: an empty weak pointer, or one whose object is gone. -/
def expired (h : AxesHeap) (wp : Option Nat) : Bool :=
  match wp with
  | none => true
  | some id => (h id).isNone

/-! ## `std::minmax_element` -/

/-- One step of the `std::minmax_element` scan: the minimum moves only to a strictly
smaller element (first smallest), the maximum moves to every element that is not
smaller (last largest). -/
def minmaxStep (p : ℚ × ℚ) (e : ℚ) : ℚ × ℚ :=
  (if e < p.1 then e else p.1, if e < p.2 then p.2 else e)

/-- Values at the two iterators `std::minmax_element(begin, end)` returns; on an empty
range both are the end iterator, which must not be dereferenced (`none`). -/
def minmax_element : List ℚ → Option (ℚ × ℚ)
  | [] => none
  | a :: rest => some (rest.foldl minmaxStep (a, a))

/-! ## LinePlot -/

/-- Class `LinePlot` (the only `PlotObject`): buffers, style attributes, capacity,
auto-update flag and the weak back-reference to an Axes. -/
structure LinePlot where
  xData : List ℚ
  yData : List ℚ
  lineColor : Color := Color.Blue
  lineWidth : ℚ := 2
  lineStyle : LineStyle := LineStyle.LINE_SOLID
  markerStyle : MarkerStyle := MarkerStyle.MARKER_NONE
  markerColor : Color := Color.Red
  markerSize : ℚ := 5
  maxPoints : Nat := 200
  autoUpdateAxesRange : Bool := true
  linkedAxes : Option Nat := none
deriving DecidableEq, Repr

/-- Constructor `LinePlot::LinePlot(x, y, maxPts)`. When `x` is longer than the
capacity both buffers lose their front through `erase(begin(), end() - maxPoints)`;
for `yData` shorter than the capacity that iterator range is invalid (`none`). -/
def LinePlot.new (x y : List ℚ) (maxPts : Nat) : Option LinePlot :=
  if x.length > maxPts then
    if y.length < maxPts then none
    else some { xData := x.drop (x.length - maxPts),
                yData := y.drop (y.length - maxPts),
                maxPoints := maxPts }
  else some { xData := x, yData := y, maxPoints := maxPts }

/-- Method `LinePlot::setColor`. -/
def LinePlot.setColor (self : LinePlot) (c : Color) : LinePlot := { self with lineColor := c }
/-- Method `LinePlot::setLineWidth`. -/
def LinePlot.setLineWidth (self : LinePlot) (w : ℚ) : LinePlot := { self with lineWidth := w }
/-- Method `LinePlot::setLineStyle`. -/
def LinePlot.setLineStyle (self : LinePlot) (s : LineStyle) : LinePlot :=
  { self with lineStyle := s }
/-- Method `LinePlot::setMarkerStyle`. -/
def LinePlot.setMarkerStyle (self : LinePlot) (s : MarkerStyle) : LinePlot :=
  { self with markerStyle := s }
/-- Method `LinePlot::setMarkerColor`. -/
def LinePlot.setMarkerColor (self : LinePlot) (c : Color) : LinePlot :=
  { self with markerColor := c }
/-- Method `LinePlot::setMarkerSize`. -/
def LinePlot.setMarkerSize (self : LinePlot) (s : ℚ) : LinePlot := { self with markerSize := s }
/-- Method `LinePlot::setMaxPoints`. -/
def LinePlot.setMaxPoints (self : LinePlot) (n : Nat) : LinePlot := { self with maxPoints := n }
/-- Method `LinePlot::setAutoUpdateAxes`. -/
def LinePlot.setAutoUpdateAxes (self : LinePlot) (enable : Bool) : LinePlot :=
  { self with autoUpdateAxesRange := enable }

/-- The range `(min - margin, max + margin)` on both axes with the 5% margin
`(max - min) * 0.05f`, as computed in `appendData` and in `plot`, in exact arithmetic
(0.05 is `5/100`, no rounding); `marginRangeF32` is the binary32 counterpart. -/
def marginRange (xm ym : ℚ × ℚ) : ℚ × ℚ × ℚ × ℚ :=
  let xMin := xm.1
  let xMax := xm.2
  let yMin := ym.1
  let yMax := ym.2
  let marginX := (xMax - xMin) * (5 / 100)
  let marginY := (yMax - yMin) * (5 / 100)
  (xMin - marginX, xMax + marginX, yMin - marginY, yMax + marginY)

/-- Apply `axes->setDataRange(r)` to the object at handle `id`. -/
def AxesHeap.setRange (h : AxesHeap) (id : Nat) (r : ℚ × ℚ × ℚ × ℚ) : AxesHeap :=
  match h id with
  | some a => h.set id (a.setDataRange r.1 r.2.1 r.2.2.1 r.2.2.2)
  | none => h

/-- The push-and-evict part of `appendData` on one buffer pair: `push_back` on both,
then one `erase(begin())` on both when `xData.size() > maxPoints`. -/
def pushEvict (xs ys : List ℚ) (maxPoints : Nat) (x y : ℚ) : List ℚ × List ℚ :=
  let xs1 := xs ++ [x]
  let ys1 := ys ++ [y]
  if xs1.length > maxPoints then (xs1.tail, ys1.tail) else (xs1, ys1)

/-- Method `LinePlot::appendData(x, y, ax)`. Returns the series and the Axes heap
afterwards; `none` when the range update dereferences the end iterator of an empty
`yData`. -/
def LinePlot.appendData (self : LinePlot) (heap : AxesHeap) (x y : ℚ) (ax : Option Nat) :
    Option (LinePlot × AxesHeap) :=
  let linked := match ax with
    | some id => some id
    | none => self.linkedAxes
  let bufs := pushEvict self.xData self.yData self.maxPoints x y
  let self1 : LinePlot := { self with xData := bufs.1, yData := bufs.2, linkedAxes := linked }
  if self1.autoUpdateAxesRange && !expired heap linked then
    if !self1.xData.isEmpty then
      match linked, minmax_element self1.xData, minmax_element self1.yData with
      | some id, some xm, some ym => some (self1, heap.setRange id (marginRange xm ym))
      | _, _, _ => none
    else some (self1, heap)
  else some (self1, heap)

/-- Repeated `appendData`, one call per sample `(x, y, ax)`, in order. -/
def appendAll (self : LinePlot) (heap : AxesHeap) :
    List (ℚ × ℚ × Option Nat) → Option (LinePlot × AxesHeap)
  | [] => some (self, heap)
  | s :: rest =>
    match self.appendData heap s.1 s.2.1 s.2.2 with
    | some (self1, heap1) => appendAll self1 heap1 rest
    | none => none

/-! ## `std::string::find` and the style string -/

/-- Call `std::string::find(char)`: the first position of `c`, `none` for `npos`. -/
def findChar : List Char → Char → Option Nat
  | [], _ => none
  | d :: rest, c => if d = c then some 0 else (findChar rest c).map (fun i => i + 1)

/-- Call `std::string::find(const char*)`: the first position where `pat` occurs as a
contiguous substring, `none` for `npos`. -/
def findStr : List Char → List Char → Option Nat
  | [], pat => if pat.isEmpty then some 0 else none
  | d :: rest, pat =>
    if pat.isPrefixOf (d :: rest) then some 0 else (findStr rest pat).map (fun i => i + 1)

/-- Lines 496-501 of `plot`: the color chain. -/
def applyColor (line : LinePlot) (style : List Char) : LinePlot :=
  if (findChar style 'r').isSome then line.setColor Color.Red
  else if (findChar style 'g').isSome then line.setColor Color.Green
  else if (findChar style 'b').isSome then line.setColor Color.Blue
  else line

/-- Lines 503-508 of `plot`: the line-pattern chain. -/
def applyLineStyle (line : LinePlot) (style : List Char) : LinePlot :=
  if (findStr style ['-', '-']).isSome then line.setLineStyle LineStyle.LINE_DASHED
  else if (findStr style [':']).isSome then line.setLineStyle LineStyle.LINE_DOTTED
  else if (findStr style ['-', '.']).isSome then line.setLineStyle LineStyle.LINE_DASH_DOT
  else line

/-- Lines 510-515 of `plot`: the marker chain. -/
def applyMarker (line : LinePlot) (style : List Char) : LinePlot :=
  if (findChar style 'o').isSome then line.setMarkerStyle MarkerStyle.MARKER_CIRCLE
  else if (findChar style 's').isSome then line.setMarkerStyle MarkerStyle.MARKER_SQUARE
  else if (findChar style '^').isSome then line.setMarkerStyle MarkerStyle.MARKER_TRIANGLE
  else line

/-- The style block of `plot` (`if (!style.empty()) ...`): the three chains, one after
the other, on the freshly constructed line. -/
def applyStyle (line : LinePlot) (style : String) : LinePlot :=
  if !style.data.isEmpty then
    applyMarker (applyLineStyle (applyColor line style.data) style.data) style.data
  else line

/-- The `(color, line pattern, marker)` of a series. -/
def LinePlot.styleTuple (self : LinePlot) : Color × LineStyle × MarkerStyle :=
  (self.lineColor, self.lineStyle, self.markerStyle)

/-! ## The world: Axes heap and plot objects -/

/-- All live objects: the Axes heap and the plot objects; a `shared_ptr<LinePlot>`
is an index into `plots`. -/
structure World where
  axes : AxesHeap
  plots : List LinePlot

/-- Function `plot(ax, x, y, style)`: constructs the series with the default capacity
200, sets the range of `*ax` from the full input when both inputs are non-empty,
applies the style, appends the series to the children of `*ax` and returns its
handle. Dereferencing a null `ax` is `none`. -/
def plot (w : World) (ax : Option Nat) (x y : List ℚ) (style : String) :
    Option (Nat × World) :=
  match LinePlot.new x y 200 with
  | none => none
  | some line0 =>
    let ranged : Option AxesHeap :=
      if !x.isEmpty && !y.isEmpty then
        match ax, minmax_element x, minmax_element y with
        | some id, some xm, some ym =>
          if (w.axes id).isSome then some (w.axes.setRange id (marginRange xm ym)) else none
        | _, _, _ => none
      else some w.axes
    match ranged with
    | none => none
    | some heap1 =>
      let line := applyStyle line0 style
      match ax with
      | none => none
      | some id =>
        match heap1 id with
        | none => none
        | some a =>
          some (w.plots.length,
            { axes := heap1.set id (a.addPlotObject w.plots.length),
              plots := w.plots ++ [line] })

/-! ## Drawing -/

/-- The OpenGL enumerants the code uses. -/
inductive GLenum
  | GL_PROJECTION
  | GL_MODELVIEW
  | GL_COLOR_BUFFER_BIT
  | GL_LINES
  | GL_LINE_STRIP
  | GL_POLYGON
  | GL_QUADS
  | GL_TRIANGLES
  | GL_LINE_STIPPLE
deriving DecidableEq, Repr

/-- One recorded OpenGL call. -/
inductive GLCmd
  | glMatrixMode (mode : GLenum)
  | glLoadIdentity
  | glOrtho (left right bottom top near far : ℚ)
  | glClearColor (r g b a : ℚ)
  | glClear (mask : GLenum)
  | glColor3f (r g b : ℚ)
  | glLineWidth (w : ℚ)
  | glBegin (mode : GLenum)
  | glVertex2f (x y : ℚ)
  | glEnd
  | glEnable (cap : GLenum)
  | glDisable (cap : GLenum)
  | glLineStipple (factor : Int) (pattern : Nat)
  | glViewport (x y width height : Int)
deriving DecidableEq, Repr

/-- The C math library functions the marker code calls, taken as parameters. -/
structure LibM where
  acos : ℚ → ℚ
  cosf : ℚ → ℚ
  sinf : ℚ → ℚ

/-- Outcome of a float division whose divisor may be zero. -/
inductive FloatVal
  | finite (q : ℚ)
  | posInf
  | negInf
  | nan
deriving DecidableEq, Repr

/-- IEEE-754 division `a / b` of finite values (divisor `+0` when zero). -/
def fdiv (a b : ℚ) : FloatVal :=
  if b = 0 then
    if 0 < a then FloatVal.posInf else if a < 0 then FloatVal.negInf else FloatVal.nan
  else FloatVal.finite (a / b)

/-- IEEE-754 comparison `a > b` for finite `a`: false against NaN and `+inf`. -/
def fgt (a : ℚ) : FloatVal → Bool
  | FloatVal.finite q => decide (q < a)
  | FloatVal.posInf => false
  | FloatVal.negInf => true
  | FloatVal.nan => false

/-- Lines 156-171 of `Axes::draw`: `(viewWidth, viewHeight)`. -/
def Axes.viewSize (self : Axes) (winWidth winHeight : Int) : ℚ × ℚ :=
  let dataWidth := self.dataXMax - self.dataXMin
  let dataHeight := self.dataYMax - self.dataYMin
  let dataAspect := fdiv dataWidth dataHeight
  let winAspect : ℚ := (winWidth : ℚ) / (winHeight : ℚ)
  if fgt winAspect dataAspect then (dataHeight * winAspect, dataHeight)
  else (dataWidth, dataWidth / winAspect)

/-- Lines 173-176 of `Axes::draw`: `(left, right, bottom, top)`. -/
def Axes.viewRect (self : Axes) (winWidth winHeight : Int) : ℚ × ℚ × ℚ × ℚ :=
  let v := self.viewSize winWidth winHeight
  (-v.1 / 2, v.1 / 2, -v.2 / 2, v.2 / 2)

/-- Method `Axes::drawGrid`. -/
def Axes.drawGrid (viewWidth viewHeight : ℚ) : List GLCmd :=
  [GLCmd.glColor3f (9 / 10) (9 / 10) (9 / 10), GLCmd.glLineWidth 1,
    GLCmd.glBegin GLenum.GL_LINES]
  ++ (List.range 11).flatMap (fun i =>
      let x := -viewWidth / 2 + viewWidth * (i : ℚ) / 10
      let y := -viewHeight / 2 + viewHeight * (i : ℚ) / 10
      [GLCmd.glVertex2f x (-viewHeight / 2), GLCmd.glVertex2f x (viewHeight / 2),
        GLCmd.glVertex2f (-viewWidth / 2) y, GLCmd.glVertex2f (viewWidth / 2) y])
  ++ [GLCmd.glEnd]

/-- Method `Axes::drawAxes`. -/
def Axes.drawAxes (viewWidth viewHeight : ℚ) : List GLCmd :=
  [GLCmd.glColor3f 0 0 0, GLCmd.glLineWidth 2, GLCmd.glBegin GLenum.GL_LINES,
    GLCmd.glVertex2f (-viewWidth / 2) 0, GLCmd.glVertex2f (viewWidth / 2) 0,
    GLCmd.glVertex2f 0 (-viewHeight / 2), GLCmd.glVertex2f 0 (viewHeight / 2),
    GLCmd.glEnd, GLCmd.glLineWidth 1, GLCmd.glBegin GLenum.GL_LINES]
  ++ (List.range 11).flatMap (fun i =>
      let x := -viewWidth / 2 + viewWidth * (i : ℚ) / 10
      let y := -viewHeight / 2 + viewHeight * (i : ℚ) / 10
      [GLCmd.glVertex2f x (-(1 / 100) * viewHeight), GLCmd.glVertex2f x ((1 / 100) * viewHeight),
        GLCmd.glVertex2f (-(1 / 100) * viewWidth) y, GLCmd.glVertex2f ((1 / 100) * viewWidth) y])
  ++ [GLCmd.glEnd]

/-- Method `LinePlot::drawSingleMarker`. -/
def LinePlot.drawSingleMarker (m : LibM) (self : LinePlot) (x y : ℚ) : List GLCmd :=
  let size := self.markerSize / 20
  match self.markerStyle with
  | MarkerStyle.MARKER_CIRCLE =>
    [GLCmd.glBegin GLenum.GL_POLYGON]
    ++ (List.range 20).map (fun i =>
        let th := 2 * m.acos (-1) * (i : ℚ) / 20
        GLCmd.glVertex2f (x + size * m.cosf th) (y + size * m.sinf th))
    ++ [GLCmd.glEnd]
  | MarkerStyle.MARKER_SQUARE =>
    [GLCmd.glBegin GLenum.GL_QUADS,
      GLCmd.glVertex2f (x - size) (y - size), GLCmd.glVertex2f (x + size) (y - size),
      GLCmd.glVertex2f (x + size) (y + size), GLCmd.glVertex2f (x - size) (y + size),
      GLCmd.glEnd]
  | MarkerStyle.MARKER_TRIANGLE =>
    [GLCmd.glBegin GLenum.GL_TRIANGLES,
      GLCmd.glVertex2f x (y + size), GLCmd.glVertex2f (x - size) (y - size),
      GLCmd.glVertex2f (x + size) (y - size), GLCmd.glEnd]
  | MarkerStyle.MARKER_CROSS =>
    [GLCmd.glBegin GLenum.GL_LINES,
      GLCmd.glVertex2f (x - size) (y - size), GLCmd.glVertex2f (x + size) (y + size),
      GLCmd.glVertex2f (x - size) (y + size), GLCmd.glVertex2f (x + size) (y - size),
      GLCmd.glEnd]
  | MarkerStyle.MARKER_PLUS =>
    [GLCmd.glBegin GLenum.GL_LINES,
      GLCmd.glVertex2f (x - size) y, GLCmd.glVertex2f (x + size) y,
      GLCmd.glVertex2f x (y - size), GLCmd.glVertex2f x (y + size), GLCmd.glEnd]
  | MarkerStyle.MARKER_NONE => []

/-- Method `LinePlot::draw`: the polyline through the buffered samples at their raw
data coordinates, then one marker per sample; both loops stop at the shorter buffer. -/
def LinePlot.draw (m : LibM) (self : LinePlot) : List GLCmd :=
  [GLCmd.glColor3f self.lineColor.r self.lineColor.g self.lineColor.b,
    GLCmd.glLineWidth self.lineWidth]
  ++ (match self.lineStyle with
      | LineStyle.LINE_DASHED =>
        [GLCmd.glEnable GLenum.GL_LINE_STIPPLE, GLCmd.glLineStipple 1 0xF0F0]
      | LineStyle.LINE_DOTTED =>
        [GLCmd.glEnable GLenum.GL_LINE_STIPPLE, GLCmd.glLineStipple 1 0xAAAA]
      | LineStyle.LINE_DASH_DOT =>
        [GLCmd.glEnable GLenum.GL_LINE_STIPPLE, GLCmd.glLineStipple 1 0xF6F6]
      | LineStyle.LINE_SOLID => [GLCmd.glDisable GLenum.GL_LINE_STIPPLE])
  ++ [GLCmd.glBegin GLenum.GL_LINE_STRIP]
  ++ (List.zip self.xData self.yData).map (fun p => GLCmd.glVertex2f p.1 p.2)
  ++ [GLCmd.glEnd, GLCmd.glDisable GLenum.GL_LINE_STIPPLE]
  ++ (if self.markerStyle ≠ MarkerStyle.MARKER_NONE then
        [GLCmd.glColor3f self.markerColor.r self.markerColor.g self.markerColor.b]
        ++ (List.zip self.xData self.yData).flatMap (fun p => self.drawSingleMarker m p.1 p.2)
      else [])

/-- Method `Axes::draw(winWidth, winHeight)`: the recorded OpenGL calls of one frame;
`plots` resolves the children handles. -/
def Axes.draw (m : LibM) (plots : List LinePlot) (self : Axes) (winWidth winHeight : Int) :
    List GLCmd :=
  if winWidth ≤ 0 ∨ winHeight ≤ 0 then []
  else
    let v := self.viewSize winWidth winHeight
    let viewWidth := v.1
    let viewHeight := v.2
    let left := -viewWidth / 2
    let right := viewWidth / 2
    let bottom := -viewHeight / 2
    let top := viewHeight / 2
    [GLCmd.glMatrixMode GLenum.GL_PROJECTION, GLCmd.glLoadIdentity,
      GLCmd.glOrtho left right bottom top (-1) 1,
      GLCmd.glMatrixMode GLenum.GL_MODELVIEW, GLCmd.glLoadIdentity,
      GLCmd.glClearColor self.backgroundColor.r self.backgroundColor.g self.backgroundColor.b 1,
      GLCmd.glClear GLenum.GL_COLOR_BUFFER_BIT]
    ++ (if self.gridEnabled then Axes.drawGrid viewWidth viewHeight else [])
    ++ Axes.drawAxes viewWidth viewHeight
    ++ self.children.flatMap (fun c =>
        match plots.get? c with
        | some child => child.draw m
        | none => [])

/-! ## `Color::fromHSV` -/

/-- Truncation toward zero, the rounding `std::fmod` uses for the quotient. -/
def truncQ (q : ℚ) : Int := if 0 ≤ q then Int.floor q else Int.ceil q

/-- Call `std::fmod(x, y)` for `y ≠ 0`: `x - trunc(x / y) * y`, exact, with the sign of
`x`. Both call sites pass a non-zero constant divisor. -/
def fmod (x y : ℚ) : ℚ := x - (truncQ (x / y) : ℚ) * y

/-- Lines 32-34 of `fromHSV`: the hue after `fmod(h, 360)` and the `+360` for a
negative remainder, in exact arithmetic; `wrapHueF32` is the binary32 counterpart. -/
def wrapHue (h : ℚ) : ℚ :=
  let h1 := fmod h 360
  if h1 < 0 then h1 + 360 else h1

/-- Lines 42-84 of `fromHSV`: the sector cascade, `(r1, g1, b1)`. -/
def hsvSector (hp c x : ℚ) : ℚ × ℚ × ℚ :=
  if 0 ≤ hp ∧ hp < 1 then (c, x, 0)
  else if 1 ≤ hp ∧ hp < 2 then (x, c, 0)
  else if 2 ≤ hp ∧ hp < 3 then (0, c, x)
  else if 3 ≤ hp ∧ hp < 4 then (0, x, c)
  else if 4 ≤ hp ∧ hp < 5 then (x, 0, c)
  else if 5 ≤ hp ∧ hp < 6 then (c, 0, x)
  else (0, 0, 0)

/-- Function `Color::fromHSV(h, s, v, alpha)`. -/
def Color.fromHSV (h s v alpha : ℚ) : Color :=
  let h := wrapHue h
  if s = 0 then ⟨v, v, v, alpha⟩
  else
    let c := v * s
    let hp := h / 60
    let x := c * (1 - |fmod hp 2 - 1|)
    let rgb1 := hsvSector hp c x
    let m := v - c
    ⟨rgb1.1 + m, rgb1.2.1 + m, rgb1.2.2 + m, alpha⟩

/-! ## `linspace` -/

/-- Function `linspace(start, end, num)`. A negative `num` makes the vector constructor
throw (`none`). -/
def linspace (start end_ : ℚ) (num : Int) : Option (List ℚ) :=
  if num < 0 then none
  else
    let step := (end_ - start) / ((max 1 (num - 1) : Int) : ℚ)
    some ((List.range num.toNat).map (fun (i : Nat) => start + (i : ℚ) * step))

/-! ## Figure -/

/-- Class `Figure`: the window handle (`none` is `nullptr`), the shared pointer to
its Axes (`none` is null), and the requested size. -/
structure Figure where
  window : Option Nat
  currentAxes : Option Nat
  width : Int
  height : Int
deriving DecidableEq, Repr

/-- What the `Figure` constructor leaves behind: the object, the world, the static
flag `glfwInitDone`, the text written to `std::cerr` and the OpenGL calls. -/
structure FigureNew where
  fig : Figure
  world : World
  glfwInitDone : Bool
  cerr : List String
  gl : List GLCmd

/-- Constructor `Figure::Figure(w, h)`. The results of `glfwInit()` and of
`glfwCreateWindow(...)` and the handle `make_shared<Axes>()` allocates are parameters;
`glfwInit()` is only consulted while the static flag is unset. -/
def Figure.new (w : World) (glfwInitDone glfwInit : Bool) (glfwCreateWindow : Option Nat)
    (newAxes : Nat) (width height : Int) : FigureNew :=
  if !glfwInitDone && !glfwInit then
    ⟨⟨none, none, width, height⟩, w, false, ["Failed to initialize GLFW\n"], []⟩
  else
    match glfwCreateWindow with
    | none => ⟨⟨none, none, width, height⟩, w, true, ["Failed to create GLFW window\n"], []⟩
    | some win =>
      ⟨⟨some win, some newAxes, width, height⟩, ⟨w.axes.set newAxes {}, w.plots⟩, true, [],
        [GLCmd.glViewport 0 0 width height]⟩

/-- Method `Figure::gca`. -/
def Figure.gca (self : Figure) : Option Nat := self.currentAxes

/-- Method `Figure::render`; the framebuffer size `glfwGetFramebufferSize` reports is a
parameter. Without a window nothing is drawn; dereferencing a null `currentAxes` is
`none`. -/
def Figure.render (m : LibM) (w : World) (self : Figure) (fbWidth fbHeight : Int) :
    Option (List GLCmd) :=
  match self.window with
  | none => some []
  | some _ =>
    match self.currentAxes with
    | none => none
    | some id =>
      match w.axes id with
      | none => none
      | some a => some (a.draw m w.plots fbWidth fbHeight)

/-! ## Calls on a world -/

/-- Method `appendData` called through the handle `line` of a series in the world. -/
def World.appendData (w : World) (line : Nat) (x y : ℚ) (ax : Option Nat) : Option World :=
  match w.plots.get? line with
  | none => none
  | some lp =>
    match lp.appendData w.axes x y ax with
    | none => none
    | some r => some ⟨r.2, w.plots.set line r.1⟩

/-- One call of the plotting interface: `plot`, or `appendData`, `setMaxPoints`,
`setAutoUpdateAxes` on the series with handle `line`. -/
inductive Call
  | plot (ax : Option Nat) (x y : List ℚ) (style : String)
  | appendData (line : Nat) (x y : ℚ) (ax : Option Nat)
  | setMaxPoints (line : Nat) (n : Nat)
  | setAutoUpdateAxes (line : Nat) (enable : Bool)

/-- The world after one call. -/
def World.call (w : World) : Call → Option World
  | Call.plot ax x y style => (plot w ax x y style).map (fun r => r.2)
  | Call.appendData line x y ax => w.appendData line x y ax
  | Call.setMaxPoints line n =>
    (w.plots.get? line).map (fun lp => ⟨w.axes, w.plots.set line (lp.setMaxPoints n)⟩)
  | Call.setAutoUpdateAxes line enable =>
    (w.plots.get? line).map
      (fun lp => ⟨w.axes, w.plots.set line (lp.setAutoUpdateAxes enable)⟩)

/-- The world after a sequence of calls, in order. -/
def World.run (w : World) : List Call → Option World
  | [] => some w
  | c :: rest =>
    match w.call c with
    | none => none
    | some w1 => World.run w1 rest

/-- One call on a single series: `appendData`, `setMaxPoints` or
`setAutoUpdateAxes`. -/
inductive SeriesOp
  | appendData (x y : ℚ) (ax : Option Nat)
  | setMaxPoints (n : Nat)
  | setAutoUpdateAxes (enable : Bool)

/-- The series and the Axes heap after one call on the series. -/
def SeriesOp.apply (lp : LinePlot) (heap : AxesHeap) : SeriesOp → Option (LinePlot × AxesHeap)
  | SeriesOp.appendData x y ax => lp.appendData heap x y ax
  | SeriesOp.setMaxPoints n => some (lp.setMaxPoints n, heap)
  | SeriesOp.setAutoUpdateAxes enable => some (lp.setAutoUpdateAxes enable, heap)

/-- The series and the Axes heap after a sequence of calls on the series, in order. -/
def runOps (lp : LinePlot) (heap : AxesHeap) : List SeriesOp → Option (LinePlot × AxesHeap)
  | [] => some (lp, heap)
  | op :: rest =>
    match SeriesOp.apply lp heap op with
    | none => none
    | some r => runOps r.1 r.2 rest

/-! ## IEEE-754 binary32 rounding

The definitions above compute in exact arithmetic. Where a statement turns on the
rounding of a `float` operation, the same source lines are embedded a second time
with every `float` operation rounded to binary32 (round to nearest, ties to even; one
rounding per operation, as with `FLT_EVAL_METHOD == 0`). -/

/-- Round a non-negative rational to the nearest integer, ties to the even one. -/
def roundHalfEven (n : ℚ) : Int :=
  let f := Int.floor n
  let r := n - (f : ℚ)
  if r < 1 / 2 then f else if 1 / 2 < r then f + 1 else if f % 2 = 0 then f else f + 1

/-- The binary32 exponent of a positive magnitude `a`: `floor(log2 a)`, not below the
smallest normal exponent -126 (subnormals share the spacing of the lowest binade). -/
def f32Exponent (a : ℚ) : Int := max (Int.log 2 a) (-126)

/-- The binary32 value nearest to `q` (24-bit significand, spacing `2^(e-23)` in the
binade of exponent `e`), ties to even; `none` when the rounded magnitude reaches
`2^128`, where the `float` result is infinite. -/
def roundF32 (q : ℚ) : Option ℚ :=
  if q = 0 then some 0
  else
    let ulp : ℚ := (2 : ℚ) ^ (f32Exponent |q| - 23)
    let r : ℚ := (roundHalfEven (|q| / ulp) : ℚ) * ulp
    if (2 : ℚ) ^ (128 : Nat) ≤ r then none else some (if q < 0 then -r else r)

/-- The literal `0.05f`: the binary32 value `13421773 * 2^-28` (bits `0x3D4CCCCD`). -/
def f32_0_05 : ℚ := 13421773 / 2 ^ 28

/-- Lines 301-303 of `appendData` (and 489-491 of `plot`) in binary32: the span, the
margin `span * 0.05f` and the four range arguments are each rounded. The extremes are
buffer elements, hence already binary32 values. `none` when a value overflows. -/
def marginRangeF32 (xm ym : ℚ × ℚ) : Option (ℚ × ℚ × ℚ × ℚ) :=
  (roundF32 (xm.2 - xm.1)).bind fun spanX =>
  (roundF32 (spanX * f32_0_05)).bind fun marginX =>
  (roundF32 (ym.2 - ym.1)).bind fun spanY =>
  (roundF32 (spanY * f32_0_05)).bind fun marginY =>
  (roundF32 (xm.1 - marginX)).bind fun x0 =>
  (roundF32 (xm.2 + marginX)).bind fun x1 =>
  (roundF32 (ym.1 - marginY)).bind fun y0 =>
  (roundF32 (ym.2 + marginY)).bind fun y1 =>
  some (x0, x1, y0, y1)

/-- Method `LinePlot::appendData(x, y, ax)` with the range arithmetic in binary32
(`marginRangeF32`); everything else as in `LinePlot.appendData`. The samples are
`float` values; `none` also when a range value overflows. -/
def LinePlot.appendDataF32 (self : LinePlot) (heap : AxesHeap) (x y : ℚ) (ax : Option Nat) :
    Option (LinePlot × AxesHeap) :=
  let linked := match ax with
    | some id => some id
    | none => self.linkedAxes
  let bufs := pushEvict self.xData self.yData self.maxPoints x y
  let self1 : LinePlot := { self with xData := bufs.1, yData := bufs.2, linkedAxes := linked }
  if self1.autoUpdateAxesRange && !expired heap linked then
    if !self1.xData.isEmpty then
      match linked, minmax_element self1.xData, minmax_element self1.yData with
      | some id, some xm, some ym =>
        (marginRangeF32 xm ym).map (fun r => (self1, heap.setRange id r))
      | _, _, _ => none
    else some (self1, heap)
  else some (self1, heap)

/-- Lines 32-34 of `fromHSV` in binary32: `fmod` is exact, the `h += 360.0f` on a
negative remainder is rounded. -/
def wrapHueF32 (h : ℚ) : Option ℚ :=
  let h1 := fmod h 360
  if h1 < 0 then roundF32 (h1 + 360) else some h1

/-- Function `Color::fromHSV(h, s, v, alpha)` in binary32: every product, quotient,
sum and difference is rounded; `fmod`, `abs` and the comparisons are exact. The
arguments are `float` values. -/
def Color.fromHSVF32 (h s v alpha : ℚ) : Option Color :=
  (wrapHueF32 h).bind fun h2 =>
  if s = 0 then some ⟨v, v, v, alpha⟩
  else
    (roundF32 (v * s)).bind fun c =>
    (roundF32 (h2 / 60)).bind fun hp =>
    (roundF32 (fmod hp 2 - 1)).bind fun d =>
    (roundF32 (1 - |d|)).bind fun t =>
    (roundF32 (c * t)).bind fun x =>
    (roundF32 (v - c)).bind fun m =>
    (roundF32 ((hsvSector hp c x).1 + m)).bind fun r =>
    (roundF32 ((hsvSector hp c x).2.1 + m)).bind fun g =>
    (roundF32 ((hsvSector hp c x).2.2 + m)).bind fun b =>
    some ⟨r, g, b, alpha⟩

/-! ## Specification-side vocabulary -/

/-- The last `n` elements of `l`, in order (all of `l` when it has at most `n`). -/
def lastN (l : List ℚ) (n : Nat) : List ℚ := l.drop (l.length - n)

/-- Value `m` is a minimum of `l`: it occurs in `l` and is below every element. -/
def IsMinOf (m : ℚ) (l : List ℚ) : Prop := m ∈ l ∧ ∀ e ∈ l, m ≤ e

/-- Value `M` is a maximum of `l`: it occurs in `l` and is above every element. -/
def IsMaxOf (M : ℚ) (l : List ℚ) : Prop := M ∈ l ∧ ∀ e ∈ l, e ≤ M

/-- Reference color rule, as the specification words it: red if the string contains
`r`, else green if it contains `g`, else blue. -/
def refColor (s : String) : Color :=
  if 'r' ∈ s.data then Color.Red
  else if 'g' ∈ s.data then Color.Green
  else Color.Blue

/-- Reference line-pattern rule, as the specification words it: dashed if the string
contains `--`, else dotted if it contains `:`, else dash-dot if it contains `-.`, else
solid. -/
def refPattern (s : String) : LineStyle :=
  if ['-', '-'] <:+: s.data then LineStyle.LINE_DASHED
  else if [':'] <:+: s.data then LineStyle.LINE_DOTTED
  else if ['-', '.'] <:+: s.data then LineStyle.LINE_DASH_DOT
  else LineStyle.LINE_SOLID

/-- Reference marker rule, as the specification words it: circle if the string
contains `o`, else square if it contains `s`, else triangle if it contains `^`, else
none. -/
def refMarker (s : String) : MarkerStyle :=
  if 'o' ∈ s.data then MarkerStyle.MARKER_CIRCLE
  else if 's' ∈ s.data then MarkerStyle.MARKER_SQUARE
  else if '^' ∈ s.data then MarkerStyle.MARKER_TRIANGLE
  else MarkerStyle.MARKER_NONE

/-- Reference style table: the three rules side by side, each reading only the
string. -/
def refStyle (s : String) : Color × LineStyle × MarkerStyle :=
  (refColor s, refPattern s, refMarker s)

/-- The condition under which the sector cascade of `fromHSV` reaches its final
`else` (the all-zero fallback): none of the six tests holds. -/
def fallbackTaken (hp : ℚ) : Prop :=
  ¬ (0 ≤ hp ∧ hp < 1) ∧ ¬ (1 ≤ hp ∧ hp < 2) ∧ ¬ (2 ≤ hp ∧ hp < 3) ∧
  ¬ (3 ≤ hp ∧ hp < 4) ∧ ¬ (4 ≤ hp ∧ hp < 5) ∧ ¬ (5 ≤ hp ∧ hp < 6)

/-- Every live Axes of the heap has `dataXMin ≤ dataXMax` and
`dataYMin ≤ dataYMax`. -/
def AxesHeap.Ordered (h : AxesHeap) : Prop :=
  ∀ id a, h id = some a → a.dataXMin ≤ a.dataXMax ∧ a.dataYMin ≤ a.dataYMax

/-- Every live Axes of the heap still has the range `-10 .. 10` on both axes that a
freshly created Axes has. -/
def AxesHeap.Fresh (h : AxesHeap) : Prop :=
  ∀ id a, h id = some a → a.range = (-10, 10, -10, 10)

/-! ## Lemmas: buffers -/

theorem lastN_length (l : List ℚ) (n : Nat) : (lastN l n).length = min l.length n := by
  unfold lastN
  rw [List.length_drop]
  omega

theorem lastN_of_le (l : List ℚ) (n : Nat) (h : l.length ≤ n) : lastN l n = l := by
  unfold lastN
  have : l.length - n = 0 := by omega
  rw [this, List.drop_zero]

theorem lastN_snoc (hist : List ℚ) (n : Nat) (x : ℚ) :
    lastN (lastN hist n ++ [x]) n = lastN (hist ++ [x]) n := by
  by_cases h : hist.length ≤ n
  · rw [lastN_of_le hist n h]
  · have hlen : (lastN hist n).length = n := by rw [lastN_length]; omega
    have e1 : lastN (lastN hist n ++ [x]) n
        = List.drop ((lastN hist n ++ [x]).length - n) (lastN hist n ++ [x]) := rfl
    rw [e1, List.length_append, hlen, List.length_singleton]
    have e2 : lastN hist n = List.drop (hist.length - n) hist := rfl
    have e3 : lastN (hist ++ [x]) n
        = List.drop ((hist ++ [x]).length - n) (hist ++ [x]) := rfl
    rw [e3, List.length_append, List.length_singleton, List.drop_append_eq_append_drop,
      List.drop_append_eq_append_drop, hlen, e2, List.drop_drop]
    have a1 : n + 1 - n = 1 := by omega
    have a2 : hist.length - n + 1 = hist.length + 1 - n := by omega
    have a3 : hist.length + 1 - n - hist.length = 1 - n := by omega
    rw [a1, a2, a3]

theorem pushEvict_fst (xs ys : List ℚ) (n : Nat) (x y : ℚ) (h : xs.length ≤ n) :
    (pushEvict xs ys n x y).1 = lastN (xs ++ [x]) n := by
  unfold pushEvict lastN
  simp only [List.length_append, List.length_singleton]
  split
  · have : xs.length + 1 - n = 1 := by omega
    rw [this]; simp
  · have : xs.length + 1 - n = 0 := by omega
    rw [this]; simp

theorem pushEvict_snd (xs ys : List ℚ) (n : Nat) (x y : ℚ) (h : xs.length ≤ n)
    (hl : xs.length = ys.length) :
    (pushEvict xs ys n x y).2 = lastN (ys ++ [y]) n := by
  unfold pushEvict lastN
  simp only [List.length_append, List.length_singleton]
  split
  · have : ys.length + 1 - n = 1 := by omega
    rw [this]; simp
  · have : ys.length + 1 - n = 0 := by omega
    rw [this]; simp

theorem pushEvict_length (xs ys : List ℚ) (n : Nat) (x y : ℚ) (hl : xs.length = ys.length) :
    (pushEvict xs ys n x y).1.length = (pushEvict xs ys n x y).2.length := by
  unfold pushEvict
  simp only
  split <;> simp [hl]

theorem minmax_element_isSome (l : List ℚ) (h : l ≠ []) : ∃ p, minmax_element l = some p := by
  cases l with
  | nil => exact absurd rfl h
  | cons a rest => exact ⟨_, rfl⟩

/-- What `appendData` does to the series itself, whenever it returns. -/
theorem appendData_series (self : LinePlot) (heap : AxesHeap) (x y : ℚ) (ax : Option Nat)
    (r : LinePlot × AxesHeap) (h : self.appendData heap x y ax = some r) :
    r.1.xData = (pushEvict self.xData self.yData self.maxPoints x y).1 ∧
    r.1.yData = (pushEvict self.xData self.yData self.maxPoints x y).2 ∧
    r.1.maxPoints = self.maxPoints ∧
    r.1.autoUpdateAxesRange = self.autoUpdateAxesRange := by
  unfold LinePlot.appendData at h
  simp only at h
  split at h
  · split at h
    · split at h
      · cases h; exact ⟨rfl, rfl, rfl, rfl⟩
      · cases h
    · cases h; exact ⟨rfl, rfl, rfl, rfl⟩
  · cases h; exact ⟨rfl, rfl, rfl, rfl⟩

/-- On buffers of equal length `appendData` always returns. -/
theorem appendData_returns (self : LinePlot) (heap : AxesHeap) (x y : ℚ) (ax : Option Nat)
    (hl : self.xData.length = self.yData.length) :
    ∃ r, self.appendData heap x y ax = some r := by
  have hlen := pushEvict_length self.xData self.yData self.maxPoints x y hl
  unfold LinePlot.appendData
  simp only
  split
  · rename_i hc
    split
    · rename_i hne
      have hx : (pushEvict self.xData self.yData self.maxPoints x y).1 ≠ [] := by
        intro h0; simp [h0] at hne
      have hy : (pushEvict self.xData self.yData self.maxPoints x y).2 ≠ [] := by
        intro h0; rw [h0] at hlen; exact hx (List.length_eq_zero.mp hlen)
      obtain ⟨xm, hxm⟩ := minmax_element_isSome _ hx
      obtain ⟨ym, hym⟩ := minmax_element_isSome _ hy
      have hlk : ∃ id, (match ax with | some id => some id | none => self.linkedAxes) = some id := by
        simp only [Bool.and_eq_true, Bool.not_eq_true', expired] at hc
        have h2 := hc.2
        split at h2
        · cases h2
        · rename_i id hid; exact ⟨id, hid⟩
      obtain ⟨id, hid⟩ := hlk
      simp only [hid, hxm, hym]
      exact ⟨_, rfl⟩
    · exact ⟨_, rfl⟩
  · exact ⟨_, rfl⟩

/-- Invariant of a run of `appendData` calls: when the buffers are the last
`maxPoints` elements of some histories of equal length, they stay so after pushing
`samples`, and the run returns. -/
theorem appendAll_history (samples : List (ℚ × ℚ × Option Nat)) :
    ∀ (lp : LinePlot) (heap : AxesHeap) (hx hy : List ℚ), hx.length = hy.length →
      lp.xData = lastN hx lp.maxPoints → lp.yData = lastN hy lp.maxPoints →
      ∃ r, appendAll lp heap samples = some r ∧
        r.1.xData = lastN (hx ++ samples.map (fun s => s.1)) lp.maxPoints ∧
        r.1.yData = lastN (hy ++ samples.map (fun s => s.2.1)) lp.maxPoints ∧
        r.1.maxPoints = lp.maxPoints ∧
        r.1.autoUpdateAxesRange = lp.autoUpdateAxesRange := by
  induction samples with
  | nil =>
    intro lp heap hx hy _ h1 h2
    exact ⟨(lp, heap), rfl, by simpa using h1, by simpa using h2, rfl, rfl⟩
  | cons s rest ih =>
    intro lp heap hx hy hl h1 h2
    have hlen : lp.xData.length = lp.yData.length := by
      rw [h1, h2, lastN_length, lastN_length, hl]
    have hle : lp.xData.length ≤ lp.maxPoints := by
      rw [h1, lastN_length]; exact Nat.min_le_right _ _
    obtain ⟨r1, hr1⟩ := appendData_returns lp heap s.1 s.2.1 s.2.2 hlen
    obtain ⟨e1, e2, e3, e4⟩ := appendData_series lp heap s.1 s.2.1 s.2.2 r1 hr1
    rw [pushEvict_fst _ _ _ _ _ hle, h1, lastN_snoc] at e1
    rw [pushEvict_snd _ _ _ _ _ hle hlen, h2, lastN_snoc] at e2
    rw [← e3] at e1 e2
    obtain ⟨r, hr, f1, f2, f3, f4⟩ :=
      ih r1.1 r1.2 (hx ++ [s.1]) (hy ++ [s.2.1]) (by simp [hl]) e1 e2
    refine ⟨r, ?_, ?_, ?_, ?_, ?_⟩
    · show (match lp.appendData heap s.1 s.2.1 s.2.2 with
        | some (self1, heap1) => appendAll self1 heap1 rest
        | none => none) = some r
      rw [hr1]; exact hr
    · rw [f1, e3]; simp
    · rw [f2, e3]; simp
    · rw [f3, e3]
    · rw [f4, e4]

/-! ## Lemmas: `minmax_element`, the constructor, `plot` -/

theorem foldl_minmaxStep (rest : List ℚ) :
    ∀ p : ℚ × ℚ,
      ((rest.foldl minmaxStep p).1 = p.1 ∨ (rest.foldl minmaxStep p).1 ∈ rest) ∧
      (rest.foldl minmaxStep p).1 ≤ p.1 ∧
      (∀ e ∈ rest, (rest.foldl minmaxStep p).1 ≤ e) ∧
      ((rest.foldl minmaxStep p).2 = p.2 ∨ (rest.foldl minmaxStep p).2 ∈ rest) ∧
      p.2 ≤ (rest.foldl minmaxStep p).2 ∧
      (∀ e ∈ rest, e ≤ (rest.foldl minmaxStep p).2) := by
  induction rest with
  | nil => intro p; simp
  | cons b rest ih =>
    intro p
    obtain ⟨h1, h2, h3, h4, h5, h6⟩ := ih (minmaxStep p b)
    simp only [List.foldl_cons, List.mem_cons]
    have s1 : (minmaxStep p b).1 ≤ p.1 ∧ (minmaxStep p b).1 ≤ b ∧
        ((minmaxStep p b).1 = p.1 ∨ (minmaxStep p b).1 = b) := by
      unfold minmaxStep
      by_cases hb : b < p.1
      · simp only [hb, if_true]; exact ⟨le_of_lt hb, le_refl _, Or.inr trivial⟩
      · simp only [hb, if_false]; exact ⟨le_refl _, not_lt.mp hb, Or.inl trivial⟩
    have s2 : p.2 ≤ (minmaxStep p b).2 ∧ b ≤ (minmaxStep p b).2 ∧
        ((minmaxStep p b).2 = p.2 ∨ (minmaxStep p b).2 = b) := by
      unfold minmaxStep
      by_cases hb : b < p.2
      · simp only [hb, if_true]; exact ⟨le_refl _, le_of_lt hb, Or.inl trivial⟩
      · simp only [hb, if_false]; exact ⟨not_lt.mp hb, le_refl _, Or.inr trivial⟩
    refine ⟨?_, le_trans h2 s1.1, ?_, ?_, le_trans s2.1 h5, ?_⟩
    · rcases h1 with h | h
      · rcases s1.2.2 with k | k
        · exact Or.inl (h.trans k)
        · exact Or.inr (Or.inl (h.trans k))
      · exact Or.inr (Or.inr h)
    · intro e he
      rcases he with rfl | he
      · exact le_trans h2 s1.2.1
      · exact h3 e he
    · rcases h4 with h | h
      · rcases s2.2.2 with k | k
        · exact Or.inl (h.trans k)
        · exact Or.inr (Or.inl (h.trans k))
      · exact Or.inr (Or.inr h)
    · intro e he
      rcases he with rfl | he
      · exact le_trans s2.2.1 h5
      · exact h6 e he

/-- The two values of `minmax_element` are a minimum and a maximum of the range. -/
theorem minmax_element_spec (l : List ℚ) (p : ℚ × ℚ) (h : minmax_element l = some p) :
    IsMinOf p.1 l ∧ IsMaxOf p.2 l := by
  cases l with
  | nil => cases h
  | cons a rest =>
    simp only [minmax_element, Option.some.injEq] at h
    subst h
    obtain ⟨h1, h2, h3, h4, h5, h6⟩ := foldl_minmaxStep rest (a, a)
    refine ⟨⟨?_, ?_⟩, ⟨?_, ?_⟩⟩
    · rcases h1 with h | h
      · rw [h]; exact List.mem_cons_self _ _
      · exact List.mem_cons_of_mem _ h
    · intro e he
      rcases List.mem_cons.mp he with rfl | he
      · exact h2
      · exact h3 e he
    · rcases h4 with h | h
      · rw [h]; exact List.mem_cons_self _ _
      · exact List.mem_cons_of_mem _ h
    · intro e he
      rcases List.mem_cons.mp he with rfl | he
      · exact h5
      · exact h6 e he

/-- The constructor on inputs of equal length. -/
theorem LinePlot.new_of_length_eq (x y : List ℚ) (C : Nat) (h : x.length = y.length) :
    LinePlot.new x y C
      = some { xData := lastN x C, yData := lastN y C, maxPoints := C } := by
  unfold LinePlot.new
  by_cases hc : x.length > C
  · have hy : ¬ y.length < C := by omega
    simp only [hc, hy, if_true, if_false]
    rfl
  · simp only [hc, if_false]
    rw [lastN_of_le x C (by omega), lastN_of_le y C (by omega)]

/-- Function `plot` on a live Axes and non-empty inputs, step by step. -/
theorem plot_of_nonempty (w : World) (id : Nat) (a : Axes) (x y : List ℚ) (style : String)
    (line0 : LinePlot) (xm ym : ℚ × ℚ)
    (hlive : w.axes id = some a) (hnew : LinePlot.new x y 200 = some line0)
    (hxm : minmax_element x = some xm) (hym : minmax_element y = some ym) :
    plot w (some id) x y style
      = some (w.plots.length,
          { axes := (w.axes.setRange id (marginRange xm ym)).set id
              ((a.setDataRange (marginRange xm ym).1 (marginRange xm ym).2.1
                (marginRange xm ym).2.2.1 (marginRange xm ym).2.2.2).addPlotObject
                  w.plots.length),
            plots := w.plots ++ [applyStyle line0 style] }) := by
  have hx : x ≠ [] := by intro h0; rw [h0] at hxm; cases hxm
  have hy : y ≠ [] := by intro h0; rw [h0] at hym; cases hym
  have hxe : x.isEmpty = false := by cases x with
    | nil => exact absurd rfl hx
    | cons _ _ => rfl
  have hye : y.isEmpty = false := by cases y with
    | nil => exact absurd rfl hy
    | cons _ _ => rfl
  have hset : (w.axes.setRange id (marginRange xm ym)) id
      = some (a.setDataRange (marginRange xm ym).1 (marginRange xm ym).2.1
                (marginRange xm ym).2.2.1 (marginRange xm ym).2.2.2) := by
    simp [AxesHeap.setRange, hlive, AxesHeap.set]
  unfold plot
  simp only [hnew, hxe, hye, hxm, hym, hlive, Bool.not_false, Bool.and_self, if_true,
    Option.isSome_some, hset]

theorem pushEvict_fst_ne_nil (xs ys : List ℚ) (n : Nat) (x y : ℚ) (hn : 1 ≤ n) :
    (pushEvict xs ys n x y).1 ≠ [] := by
  intro h0
  have hl : (pushEvict xs ys n x y).1.length = 0 := by rw [h0]; rfl
  unfold pushEvict at hl
  simp only at hl
  split at hl
  · rename_i hc
    simp only [List.length_tail, List.length_append, List.length_singleton] at hl hc
    omega
  · simp at hl

/-- Method `appendData` with a live Axes argument and auto-update on, step by step. -/
theorem appendData_of_live (self : LinePlot) (heap : AxesHeap) (x y : ℚ) (id : Nat) (a : Axes)
    (xm ym : ℚ × ℚ)
    (hauto : self.autoUpdateAxesRange = true) (hlive : heap id = some a)
    (hxm : minmax_element (pushEvict self.xData self.yData self.maxPoints x y).1 = some xm)
    (hym : minmax_element (pushEvict self.xData self.yData self.maxPoints x y).2 = some ym) :
    self.appendData heap x y (some id)
      = some ({ self with
                  xData := (pushEvict self.xData self.yData self.maxPoints x y).1,
                  yData := (pushEvict self.xData self.yData self.maxPoints x y).2,
                  linkedAxes := some id },
              heap.setRange id (marginRange xm ym)) := by
  have hne : (pushEvict self.xData self.yData self.maxPoints x y).1.isEmpty = false := by
    cases hb : (pushEvict self.xData self.yData self.maxPoints x y).1 with
    | nil => rw [hb] at hxm; cases hxm
    | cons _ _ => rfl
  unfold LinePlot.appendData
  simp only [hauto, expired, hlive, hne, hxm, hym, Option.isNone_some, Bool.not_false,
    Bool.and_self, if_true]

/-- The range that `marginRange` yields brackets the extremes with a 5% gap. -/
theorem margin_facts (m M lo hi : ℚ) (hmM : m ≤ M)
    (hlo : lo = m - (M - m) * (5 / 100)) (hhi : hi = M + (M - m) * (5 / 100)) :
    lo = m - 0.05 * (M - m) ∧ hi = M + 0.05 * (M - m) ∧
    lo ≤ m ∧ M ≤ hi ∧
    m - lo = 0.05 * (M - m) ∧ hi - M = 0.05 * (M - m) ∧
    (m - lo = 0 ↔ M - m = 0) ∧ (hi - M = 0 ↔ M - m = 0) := by
  subst hlo hhi
  have h0 : 0 ≤ M - m := sub_nonneg.mpr hmM
  refine ⟨by norm_num; ring, by norm_num; ring, ?_, ?_, by norm_num; ring, by norm_num; ring,
    ?_, ?_⟩
  · nlinarith
  · nlinarith
  · constructor
    · intro h; nlinarith
    · intro h; rw [h]; ring
  · constructor
    · intro h; nlinarith
    · intro h; rw [h]; ring

theorem applyColor_bufs (line : LinePlot) (s : List Char) :
    (applyColor line s).xData = line.xData ∧ (applyColor line s).yData = line.yData := by
  unfold applyColor
  split_ifs <;> exact ⟨rfl, rfl⟩

theorem applyLineStyle_bufs (line : LinePlot) (s : List Char) :
    (applyLineStyle line s).xData = line.xData ∧
    (applyLineStyle line s).yData = line.yData := by
  unfold applyLineStyle
  split_ifs <;> exact ⟨rfl, rfl⟩

theorem applyMarker_bufs (line : LinePlot) (s : List Char) :
    (applyMarker line s).xData = line.xData ∧ (applyMarker line s).yData = line.yData := by
  unfold applyMarker
  split_ifs <;> exact ⟨rfl, rfl⟩

theorem applyStyle_xData (line : LinePlot) (style : String) :
    (applyStyle line style).xData = line.xData := by
  unfold applyStyle
  split_ifs
  · rw [(applyMarker_bufs _ _).1, (applyLineStyle_bufs _ _).1, (applyColor_bufs _ _).1]
  · rfl

theorem applyStyle_yData (line : LinePlot) (style : String) :
    (applyStyle line style).yData = line.yData := by
  unfold applyStyle
  split_ifs
  · rw [(applyMarker_bufs _ _).2, (applyLineStyle_bufs _ _).2, (applyColor_bufs _ _).2]
  · rfl

theorem findChar_isSome (s : List Char) (c : Char) : (findChar s c).isSome = true ↔ c ∈ s := by
  induction s with
  | nil => simp [findChar]
  | cons d rest ih =>
    unfold findChar
    by_cases h : d = c
    · simp [h]
    · have h2 : ¬ c = d := fun e => h e.symm
      simp only [h, if_false, Option.isSome_map', ih, List.mem_cons, h2, false_or]

theorem findStr_isSome (s pat : List Char) : (findStr s pat).isSome = true ↔ pat <:+: s := by
  induction s with
  | nil =>
    unfold findStr
    cases pat with
    | nil => simp
    | cons p ps => simp
  | cons d rest ih =>
    unfold findStr
    by_cases h : pat.isPrefixOf (d :: rest) = true
    · simp only [h, if_true, Option.isSome_some, true_iff]
      exact (List.isPrefixOf_iff_prefix.mp h).isInfix
    · have h2 : ¬ pat <+: d :: rest := fun e => h (List.isPrefixOf_iff_prefix.mpr e)
      rw [if_neg h, List.infix_cons_iff]
      simp only [Option.isSome_map', h2, false_or]
      exact ih

theorem applyColor_attrs (line : LinePlot) (s : List Char) :
    (applyColor line s).lineColor =
      (if 'r' ∈ s then Color.Red
       else if 'g' ∈ s then Color.Green
       else if 'b' ∈ s then Color.Blue
       else line.lineColor) ∧
    (applyColor line s).lineStyle = line.lineStyle ∧
    (applyColor line s).markerStyle = line.markerStyle := by
  unfold applyColor
  simp only [findChar_isSome]
  split_ifs <;> exact ⟨rfl, rfl, rfl⟩

theorem applyLineStyle_attrs (line : LinePlot) (s : List Char) :
    (applyLineStyle line s).lineColor = line.lineColor ∧
    (applyLineStyle line s).lineStyle =
      (if ['-', '-'] <:+: s then LineStyle.LINE_DASHED
       else if [':'] <:+: s then LineStyle.LINE_DOTTED
       else if ['-', '.'] <:+: s then LineStyle.LINE_DASH_DOT
       else line.lineStyle) ∧
    (applyLineStyle line s).markerStyle = line.markerStyle := by
  unfold applyLineStyle
  simp only [findStr_isSome]
  split_ifs <;> exact ⟨rfl, rfl, rfl⟩

theorem applyMarker_attrs (line : LinePlot) (s : List Char) :
    (applyMarker line s).lineColor = line.lineColor ∧
    (applyMarker line s).lineStyle = line.lineStyle ∧
    (applyMarker line s).markerStyle =
      (if 'o' ∈ s then MarkerStyle.MARKER_CIRCLE
       else if 's' ∈ s then MarkerStyle.MARKER_SQUARE
       else if '^' ∈ s then MarkerStyle.MARKER_TRIANGLE
       else line.markerStyle) := by
  unfold applyMarker
  simp only [findChar_isSome]
  split_ifs <;> exact ⟨rfl, rfl, rfl⟩

theorem isEmpty_not_of_ne_nil (l : List Char) (h : l ≠ []) : (!l.isEmpty) = true := by
  cases l with
  | nil => exact absurd rfl h
  | cons _ _ => rfl

/-- The color after the style block, read off the string. -/
theorem applyStyle_lineColor (line : LinePlot) (s : String) :
    (applyStyle line s).lineColor =
      if 'r' ∈ s.data then Color.Red
      else if 'g' ∈ s.data then Color.Green
      else if 'b' ∈ s.data then Color.Blue
      else line.lineColor := by
  unfold applyStyle
  by_cases he : s.data = []
  · simp [he]
  · rw [if_pos (isEmpty_not_of_ne_nil _ he), (applyMarker_attrs _ _).1,
      (applyLineStyle_attrs _ _).1, (applyColor_attrs _ _).1]

/-- The line pattern after the style block, read off the string. -/
theorem applyStyle_lineStyle (line : LinePlot) (s : String) :
    (applyStyle line s).lineStyle =
      if ['-', '-'] <:+: s.data then LineStyle.LINE_DASHED
      else if [':'] <:+: s.data then LineStyle.LINE_DOTTED
      else if ['-', '.'] <:+: s.data then LineStyle.LINE_DASH_DOT
      else line.lineStyle := by
  unfold applyStyle
  by_cases he : s.data = []
  · simp [he]
  · rw [if_pos (isEmpty_not_of_ne_nil _ he), (applyMarker_attrs _ _).2.1,
      (applyLineStyle_attrs _ _).2.1, (applyColor_attrs _ _).2.1]

/-- The marker after the style block, read off the string. -/
theorem applyStyle_markerStyle (line : LinePlot) (s : String) :
    (applyStyle line s).markerStyle =
      if 'o' ∈ s.data then MarkerStyle.MARKER_CIRCLE
      else if 's' ∈ s.data then MarkerStyle.MARKER_SQUARE
      else if '^' ∈ s.data then MarkerStyle.MARKER_TRIANGLE
      else line.markerStyle := by
  unfold applyStyle
  by_cases he : s.data = []
  · simp [he]
  · rw [if_pos (isEmpty_not_of_ne_nil _ he), (applyMarker_attrs _ _).2.2,
      (applyLineStyle_attrs _ _).2.2, (applyColor_attrs _ _).2.2]

/-- Function `plot` on a live Axes with both inputs empty, step by step. -/
theorem plot_of_empty (w : World) (id : Nat) (a : Axes) (style : String) (line0 : LinePlot)
    (hlive : w.axes id = some a) (hnew : LinePlot.new [] [] 200 = some line0) :
    plot w (some id) [] [] style
      = some (w.plots.length,
          World.mk (w.axes.set id (a.addPlotObject w.plots.length))
            (w.plots ++ [applyStyle line0 style])) := by
  unfold plot
  simp only [hnew, List.isEmpty_nil, Bool.not_true, Bool.and_self, Bool.false_eq_true,
    if_false, hlive]

/-- Function `plot` on a live Axes and inputs of equal length returns; the new series
is the constructed one after the style block. -/
theorem plot_returns_styled (w : World) (id : Nat) (a : Axes) (x y : List ℚ) (style : String)
    (hlive : w.axes id = some a) (hlen : x.length = y.length) :
    ∃ h w1, plot w (some id) x y style = some (h, w1) ∧
      w1.plots.get? h
        = some (applyStyle (LinePlot.mk (lastN x 200) (lastN y 200) Color.Blue 2
            LineStyle.LINE_SOLID MarkerStyle.MARKER_NONE Color.Red 5 200 true none) style) := by
  cases x with
  | nil =>
    have hy : y = [] := List.length_eq_zero.mp hlen.symm
    subst hy
    exact ⟨_, _, plot_of_empty w id a style _ hlive (LinePlot.new_of_length_eq [] [] 200 rfl),
      by simp⟩
  | cons x0 xs =>
    have hy : y ≠ [] := by
      intro h0; rw [h0] at hlen; exact List.cons_ne_nil _ _ (List.length_eq_zero.mp hlen)
    obtain ⟨ym, hym⟩ := minmax_element_isSome _ hy
    exact ⟨_, _,
      plot_of_nonempty w id a (x0 :: xs) y style _ _ ym hlive
        (LinePlot.new_of_length_eq _ y 200 hlen) rfl hym, by simp⟩

/-! ## Lemmas: drawing -/

/-- The frame of `Axes::draw` on a window of positive size: the projection set-up with
the view rectangle, the clear, the grid, the axes, then the children. -/
theorem Axes.draw_of_pos (m : LibM) (plots : List LinePlot) (self : Axes) (winWidth winHeight : Int)
    (hw : 0 < winWidth) (hh : 0 < winHeight) :
    self.draw m plots winWidth winHeight =
      [GLCmd.glMatrixMode GLenum.GL_PROJECTION, GLCmd.glLoadIdentity,
        GLCmd.glOrtho (self.viewRect winWidth winHeight).1 (self.viewRect winWidth winHeight).2.1
          (self.viewRect winWidth winHeight).2.2.1 (self.viewRect winWidth winHeight).2.2.2 (-1) 1,
        GLCmd.glMatrixMode GLenum.GL_MODELVIEW, GLCmd.glLoadIdentity,
        GLCmd.glClearColor self.backgroundColor.r self.backgroundColor.g
          self.backgroundColor.b 1,
        GLCmd.glClear GLenum.GL_COLOR_BUFFER_BIT]
      ++ (if self.gridEnabled then
            Axes.drawGrid (self.viewSize winWidth winHeight).1 (self.viewSize winWidth winHeight).2
          else [])
      ++ Axes.drawAxes (self.viewSize winWidth winHeight).1 (self.viewSize winWidth winHeight).2
      ++ self.children.flatMap (fun c =>
          match plots.get? c with
          | some child => child.draw m
          | none => []) := by
  have hc : ¬ (winWidth ≤ 0 ∨ winHeight ≤ 0) := by omega
  unfold Axes.draw
  rw [if_neg hc]
  rfl

/-- The guard of `Axes::draw`: a window of non-positive width or height gives an empty
frame. -/
theorem Axes.draw_of_degenerate_window (m : LibM) (plots : List LinePlot) (self : Axes)
    (winWidth winHeight : Int) (h : winWidth ≤ 0 ∨ winHeight ≤ 0) :
    self.draw m plots winWidth winHeight = [] := by
  unfold Axes.draw
  rw [if_pos h]

/-- The projection call of a frame on a window of positive size. -/
theorem Axes.glOrtho_mem_draw (m : LibM) (plots : List LinePlot) (self : Axes)
    (winWidth winHeight : Int) (hw : 0 < winWidth) (hh : 0 < winHeight) :
    GLCmd.glOrtho (self.viewRect winWidth winHeight).1 (self.viewRect winWidth winHeight).2.1
        (self.viewRect winWidth winHeight).2.2.1 (self.viewRect winWidth winHeight).2.2.2 (-1) 1
      ∈ self.draw m plots winWidth winHeight := by
  rw [Axes.draw_of_pos m plots self winWidth winHeight hw hh]
  simp

/-- A vertex of a child's polyline is part of the frame. -/
theorem Axes.child_vertex_mem_draw (m : LibM) (plots : List LinePlot) (self : Axes)
    (winWidth winHeight : Int) (hw : 0 < winWidth) (hh : 0 < winHeight)
    (c : Nat) (child : LinePlot) (p : ℚ × ℚ) (hc : c ∈ self.children)
    (hchild : plots.get? c = some child) (hp : p ∈ List.zip child.xData child.yData) :
    GLCmd.glVertex2f p.1 p.2 ∈ self.draw m plots winWidth winHeight := by
  rw [Axes.draw_of_pos m plots self winWidth winHeight hw hh]
  apply List.mem_append_right
  rw [List.mem_flatMap]
  refine ⟨c, hc, ?_⟩
  rw [hchild]
  unfold LinePlot.draw
  simp only [List.mem_append, List.mem_map]
  exact Or.inl (Or.inl (Or.inr ⟨p, hp, rfl⟩))

/-- The view size on a data rectangle of positive height: the two branches of the
aspect comparison. -/
theorem Axes.viewSize_of_pos_height (self : Axes) (winWidth winHeight : Int)
    (hy : self.dataYMin < self.dataYMax) :
    self.viewSize winWidth winHeight =
      if (self.dataXMax - self.dataXMin) / (self.dataYMax - self.dataYMin)
          < (winWidth : ℚ) / (winHeight : ℚ) then
        ((self.dataYMax - self.dataYMin) * ((winWidth : ℚ) / (winHeight : ℚ)),
          self.dataYMax - self.dataYMin)
      else
        (self.dataXMax - self.dataXMin,
          (self.dataXMax - self.dataXMin) / ((winWidth : ℚ) / (winHeight : ℚ))) := by
  have hne : self.dataYMax - self.dataYMin ≠ 0 := ne_of_gt (sub_pos.mpr hy)
  unfold Axes.viewSize fdiv
  simp only [hne, if_false, fgt, decide_eq_true_eq]

/-- Function `plot` on a live Axes and non-empty inputs of equal length, with what the
frame needs: the new handle, the series appended to the plot objects and to the
children, the range and the untouched fields. -/
theorem plot_frame_of_nonempty (w : World) (id : Nat) (a : Axes) (x y : List ℚ)
    (style : String) (xm ym : ℚ × ℚ) (hlive : w.axes id = some a)
    (hlen : x.length = y.length)
    (hxm : minmax_element x = some xm) (hym : minmax_element y = some ym) :
    ∃ w1 a1 line, plot w (some id) x y style = some (w.plots.length, w1) ∧
      w1.axes id = some a1 ∧ w1.plots = w.plots ++ [line] ∧
      line.xData = lastN x 200 ∧ line.yData = lastN y 200 ∧
      a1.range = marginRange xm ym ∧ a1.children = a.children ++ [w.plots.length] := by
  refine ⟨_,
    (a.setDataRange (marginRange xm ym).1 (marginRange xm ym).2.1
      (marginRange xm ym).2.2.1 (marginRange xm ym).2.2.2).addPlotObject w.plots.length,
    applyStyle (LinePlot.mk (lastN x 200) (lastN y 200) Color.Blue 2
      LineStyle.LINE_SOLID MarkerStyle.MARKER_NONE Color.Red 5 200 true none) style,
    plot_of_nonempty w id a x y style _ xm ym hlive (LinePlot.new_of_length_eq x y 200 hlen)
      hxm hym, ?_, rfl, ?_, ?_, rfl, rfl⟩
  · simp [AxesHeap.set]
  · rw [applyStyle_xData]
  · rw [applyStyle_yData]

/-- The four range fields, read off `Axes.range`. -/
theorem Axes.fields_of_range (self : Axes) (r : ℚ × ℚ × ℚ × ℚ) (h : self.range = r) :
    self.dataXMin = r.1 ∧ self.dataXMax = r.2.1 ∧ self.dataYMin = r.2.2.1 ∧
    self.dataYMax = r.2.2.2 := by
  subst h
  exact ⟨rfl, rfl, rfl, rfl⟩

/-! ## Lemmas: `fromHSV` -/

/-- Call `fmod` on a non-negative dividend: the remainder `r` of `x = k*y + r` with
`0 ≤ r < y`. -/
theorem fmod_eq_of_nonneg (x y r : ℚ) (k : Int) (hx : 0 ≤ x) (hy : 0 < y)
    (hr0 : 0 ≤ r) (hr1 : r < y) (hk : x = (k : ℚ) * y + r) : fmod x y = r := by
  have hq : 0 ≤ x / y := div_nonneg hx (le_of_lt hy)
  have hfl : Int.floor (x / y) = k := by
    rw [Int.floor_eq_iff]
    constructor
    · rw [le_div_iff₀ hy]; linarith
    · rw [div_lt_iff₀ hy]; linarith
  unfold fmod truncQ
  rw [if_pos hq, hfl, hk]
  ring

/-- Call `fmod` on a non-negative dividend and a positive divisor lies in `[0, y)`. -/
theorem fmod_range_of_nonneg (x y : ℚ) (hx : 0 ≤ x) (hy : 0 < y) :
    0 ≤ fmod x y ∧ fmod x y < y := by
  have hq : 0 ≤ x / y := div_nonneg hx (le_of_lt hy)
  have h1 : (Int.floor (x / y) : ℚ) ≤ x / y := Int.floor_le _
  have h2 : x / y < (Int.floor (x / y) : ℚ) + 1 := Int.lt_floor_add_one _
  rw [le_div_iff₀ hy] at h1
  rw [div_lt_iff₀ hy] at h2
  unfold fmod truncQ
  rw [if_pos hq]
  constructor <;> linarith

/-- The wrapped hue lies in `[0, 360)` and differs from the hue by a multiple of 360. -/
theorem wrapHue_spec (h : ℚ) :
    0 ≤ wrapHue h ∧ wrapHue h < 360 ∧ ∃ k : Int, wrapHue h = h - (k : ℚ) * 360 := by
  have h360 : (0 : ℚ) < 360 := by norm_num
  by_cases hq : 0 ≤ h / 360
  · have hh : 0 ≤ h := by
      have := mul_nonneg hq (le_of_lt h360)
      rwa [div_mul_cancel₀ h (ne_of_gt h360)] at this
    obtain ⟨r0, r1⟩ := fmod_range_of_nonneg h 360 hh h360
    have hw : wrapHue h = fmod h 360 := by
      unfold wrapHue
      simp only
      rw [if_neg (not_lt.mpr r0)]
    rw [hw]
    refine ⟨r0, r1, Int.floor (h / 360), ?_⟩
    unfold fmod truncQ
    rw [if_pos hq]
  · have h1 : h / 360 ≤ (Int.ceil (h / 360) : ℚ) := Int.le_ceil _
    have h2 : (Int.ceil (h / 360) : ℚ) < h / 360 + 1 := Int.ceil_lt_add_one _
    rw [div_le_iff₀ h360] at h1
    have h2' : (Int.ceil (h / 360) : ℚ) * 360 < h + 360 := by
      have := mul_lt_mul_of_pos_right h2 h360
      rw [add_mul, div_mul_cancel₀ h (ne_of_gt h360)] at this
      linarith
    have hf : fmod h 360 = h - (Int.ceil (h / 360) : ℚ) * 360 := by
      unfold fmod truncQ
      rw [if_neg hq]
    unfold wrapHue
    simp only
    rw [hf]
    split_ifs with hc
    · refine ⟨by linarith, by linarith, Int.ceil (h / 360) - 1, ?_⟩
      push_cast
      ring
    · exact ⟨by linarith, by linarith, Int.ceil (h / 360), rfl⟩

/-- Two values in `[0, 360)` that differ by a multiple of 360 are equal. -/
theorem eq_of_mem_of_sub_mul (a b : ℚ) (k : Int) (ha0 : 0 ≤ a) (ha1 : a < 360)
    (hb0 : 0 ≤ b) (hb1 : b < 360) (hk : a = b + (k : ℚ) * 360) : a = b := by
  have h1 : (k : ℚ) < 1 := by
    by_contra hc
    have : (1 : ℚ) ≤ k := not_lt.mp hc
    nlinarith
  have h2 : (-1 : ℚ) < k := by
    by_contra hc
    have : (k : ℚ) ≤ -1 := not_lt.mp hc
    nlinarith
  have h3 : k < 1 := by exact_mod_cast h1
  have h4 : -1 < k := by exact_mod_cast h2
  have h5 : k = 0 := by omega
  rw [hk, h5]
  simp

/-- The wrapped hue of `k*360 + r` with `0 ≤ r < 360` is `r`. -/
theorem wrapHue_eq_of (h r : ℚ) (k : Int) (hr0 : 0 ≤ r) (hr1 : r < 360)
    (hk : h = (k : ℚ) * 360 + r) : wrapHue h = r := by
  obtain ⟨w0, w1, j, hj⟩ := wrapHue_spec h
  refine eq_of_mem_of_sub_mul (wrapHue h) r (k - j) w0 w1 hr0 hr1 ?_
  rw [hj, hk]
  push_cast
  ring

/-- The wrapped hue is periodic with period 360. -/
theorem wrapHue_add_mul (h : ℚ) (k : Int) : wrapHue (h + 360 * (k : ℚ)) = wrapHue h := by
  obtain ⟨w0, w1, j, hj⟩ := wrapHue_spec h
  refine wrapHue_eq_of _ _ (k + j) w0 w1 ?_
  rw [hj]
  push_cast
  ring

/-- On `[0, 6)` the sector cascade does not reach its fallback. -/
theorem not_fallbackTaken_of_mem (hp : ℚ) (h0 : 0 ≤ hp) (h6 : hp < 6) :
    ¬ fallbackTaken hp := by
  intro hf
  obtain ⟨f0, f1, f2, f3, f4, f5⟩ := hf
  have g1 : 1 ≤ hp := by
    by_contra hc; exact f0 ⟨h0, not_le.mp hc⟩
  have g2 : 2 ≤ hp := by
    by_contra hc; exact f1 ⟨g1, not_le.mp hc⟩
  have g3 : 3 ≤ hp := by
    by_contra hc; exact f2 ⟨g2, not_le.mp hc⟩
  have g4 : 4 ≤ hp := by
    by_contra hc; exact f3 ⟨g3, not_le.mp hc⟩
  have g5 : 5 ≤ hp := by
    by_contra hc; exact f4 ⟨g4, not_le.mp hc⟩
  exact f5 ⟨g5, h6⟩

/-- The sector cascade yields `(0, 0, 0)` through its final `else` exactly under
`fallbackTaken`. -/
theorem hsvSector_of_fallbackTaken (hp c x : ℚ) (hf : fallbackTaken hp) :
    hsvSector hp c x = (0, 0, 0) := by
  obtain ⟨f0, f1, f2, f3, f4, f5⟩ := hf
  unfold hsvSector
  rw [if_neg f0, if_neg f1, if_neg f2, if_neg f3, if_neg f4, if_neg f5]

/-- On `[0, 6)` with `0 ≤ x ≤ c`, the maximum of the sector triple is `c` and its
minimum is `0`. -/
theorem hsvSector_extremes (hp c x : ℚ) (h0 : 0 ≤ hp) (h6 : hp < 6) (hx0 : 0 ≤ x)
    (hxc : x ≤ c) :
    max (max (hsvSector hp c x).1 (hsvSector hp c x).2.1) (hsvSector hp c x).2.2 = c ∧
    min (min (hsvSector hp c x).1 (hsvSector hp c x).2.1) (hsvSector hp c x).2.2 = 0 := by
  have hc0 : 0 ≤ c := le_trans hx0 hxc
  have hnf := not_fallbackTaken_of_mem hp h0 h6
  unfold hsvSector
  split_ifs with c0 c1 c2 c3 c4 c5
  · simp [max_eq_left hxc, max_eq_left hc0, min_eq_right hxc, min_eq_right hx0]
  · simp [max_eq_right hxc, max_eq_left hc0, min_eq_left hxc, min_eq_right hx0]
  · simp [max_eq_right hc0, max_eq_left hxc, min_eq_left hc0, min_eq_left hx0]
  · simp [max_eq_right hx0, max_eq_right hxc, min_eq_left hx0, min_eq_left hc0]
  · simp [max_eq_left hx0, max_eq_right hxc, min_eq_right hx0, min_eq_left hc0]
  · simp [max_eq_left hc0, max_eq_left hxc, min_eq_right hc0, min_eq_left hx0]
  · exact absurd ⟨c0, c1, c2, c3, c4, c5⟩ hnf

/-- The extremes of the color `fromHSV` returns, for `0 ≤ s ≤ 1` and `0 ≤ v`. -/
theorem fromHSV_extremes (h s v alpha : ℚ) (hs0 : 0 ≤ s) (hs1 : s ≤ 1) (hv0 : 0 ≤ v) :
    max (max (Color.fromHSV h s v alpha).r (Color.fromHSV h s v alpha).g)
        (Color.fromHSV h s v alpha).b = v ∧
    min (min (Color.fromHSV h s v alpha).r (Color.fromHSV h s v alpha).g)
        (Color.fromHSV h s v alpha).b = v * (1 - s) ∧
    (Color.fromHSV h s v alpha).a = alpha := by
  obtain ⟨w0, w1, _⟩ := wrapHue_spec h
  by_cases hs : s = 0
  · subst hs
    simp [Color.fromHSV]
  · have hp0 : 0 ≤ wrapHue h / 60 := div_nonneg w0 (by norm_num)
    have hp6 : wrapHue h / 60 < 6 := by
      rw [div_lt_iff₀ (by norm_num)]; linarith
    have hc0 : 0 ≤ v * s := mul_nonneg hv0 hs0
    obtain ⟨f0, f1⟩ := fmod_range_of_nonneg (wrapHue h / 60) 2 hp0 (by norm_num)
    have habs : |fmod (wrapHue h / 60) 2 - 1| ≤ 1 := by
      rw [abs_le]; constructor <;> linarith
    have habs0 : 0 ≤ |fmod (wrapHue h / 60) 2 - 1| := abs_nonneg _
    have hx0 : 0 ≤ v * s * (1 - |fmod (wrapHue h / 60) 2 - 1|) :=
      mul_nonneg hc0 (by linarith)
    have hxc : v * s * (1 - |fmod (wrapHue h / 60) 2 - 1|) ≤ v * s := by
      nlinarith
    obtain ⟨e1, e2⟩ := hsvSector_extremes (wrapHue h / 60) (v * s)
      (v * s * (1 - |fmod (wrapHue h / 60) 2 - 1|)) hp0 hp6 hx0 hxc
    unfold Color.fromHSV
    simp only [hs, if_false]
    refine ⟨?_, ?_, trivial⟩
    · rw [max_add_add_right, max_add_add_right, e1]; ring
    · rw [min_add_add_right, min_add_add_right, e2]; ring

/-! ## Lemmas: `plot` without ranging, `Figure` -/

/-- The constructor on an `x` that fits the capacity keeps both inputs whole. -/
theorem LinePlot.new_of_le (x y : List ℚ) (C : Nat) (h : x.length ≤ C) :
    LinePlot.new x y C = some (LinePlot.mk x y Color.Blue 2 LineStyle.LINE_SOLID
      MarkerStyle.MARKER_NONE Color.Red 5 C true none) := by
  unfold LinePlot.new
  rw [if_neg (by omega)]

/-- Function `plot` on a live Axes when `x` or `y` is empty and `x` has at most 200
elements, step by step: no range update. -/
theorem plot_of_some_empty (w : World) (id : Nat) (a : Axes) (x y : List ℚ) (style : String)
    (hlive : w.axes id = some a) (he : x = [] ∨ y = []) (hx : x.length ≤ 200) :
    plot w (some id) x y style
      = some (w.plots.length,
          World.mk (w.axes.set id (a.addPlotObject w.plots.length))
            (w.plots ++ [applyStyle (LinePlot.mk x y Color.Blue 2 LineStyle.LINE_SOLID
              MarkerStyle.MARKER_NONE Color.Red 5 200 true none) style])) := by
  have hc : (!x.isEmpty && !y.isEmpty) = false := by
    rcases he with h | h <;> simp [h]
  unfold plot
  simp only [LinePlot.new_of_le x y 200 hx, hc, Bool.false_eq_true, if_false, hlive]

/-- Function `plot` through a null Axes pointer never returns. -/
theorem plot_of_null (w : World) (x y : List ℚ) (style : String) :
    plot w none x y style = none := by
  unfold plot
  cases LinePlot.new x y 200 with
  | none => rfl
  | some line0 =>
    simp only
    split
    · rfl
    · rfl

/-! ## Lemmas: the range stays ordered -/

theorem minmax_element_le (l : List ℚ) (p : ℚ × ℚ) (h : minmax_element l = some p) :
    p.1 ≤ p.2 := by
  obtain ⟨hmin, hmax⟩ := minmax_element_spec l p h
  exact hmin.2 _ hmax.1

theorem marginRange_ordered (xm ym : ℚ × ℚ) (hx : xm.1 ≤ xm.2) (hy : ym.1 ≤ ym.2) :
    (marginRange xm ym).1 ≤ (marginRange xm ym).2.1 ∧
    (marginRange xm ym).2.2.1 ≤ (marginRange xm ym).2.2.2 := by
  unfold marginRange
  simp only
  constructor <;> nlinarith

theorem AxesHeap.setRange_ordered (h : AxesHeap) (id : Nat) (r : ℚ × ℚ × ℚ × ℚ)
    (ho : h.Ordered) (hr : r.1 ≤ r.2.1 ∧ r.2.2.1 ≤ r.2.2.2) : (h.setRange id r).Ordered := by
  intro j a1 hj
  cases hid : h id with
  | none =>
    simp only [AxesHeap.setRange, hid] at hj
    exact ho j a1 hj
  | some a =>
    simp only [AxesHeap.setRange, hid, AxesHeap.set] at hj
    split at hj
    · cases hj
      exact hr
    · exact ho j a1 hj

theorem AxesHeap.set_addPlotObject_ordered (h : AxesHeap) (id : Nat) (a : Axes) (obj : Nat)
    (ho : h.Ordered) (ha : h id = some a) : (h.set id (a.addPlotObject obj)).Ordered := by
  intro j a1 hj
  unfold AxesHeap.set at hj
  split at hj
  · cases hj
    exact ho id a ha
  · exact ho j a1 hj

/-- Function `plot` keeps every range ordered. -/
theorem plot_ordered (w : World) (ax : Option Nat) (x y : List ℚ) (style : String)
    (r : Nat × World) (ho : w.axes.Ordered) (hp : plot w ax x y style = some r) :
    r.2.axes.Ordered := by
  unfold plot at hp
  split at hp
  · cases hp
  · simp only at hp
    split at hp
    · cases hp
    · rename_i heap1 hr
      have ho1 : AxesHeap.Ordered heap1 := by
        split at hr
        · split at hr
          · rename_i id xm ym hxm hym
            split at hr
            · cases hr
              exact AxesHeap.setRange_ordered _ _ _ ho
                (marginRange_ordered xm ym (minmax_element_le _ _ hxm)
                  (minmax_element_le _ _ hym))
            · cases hr
          · cases hr
        · cases hr
          exact ho
      split at hp
      · cases hp
      · split at hp
        · cases hp
        · rename_i a ha
          cases hp
          exact AxesHeap.set_addPlotObject_ordered _ _ _ _ ho1 ha

/-- Method `appendData` keeps every range ordered. -/
theorem appendData_ordered (lp : LinePlot) (heap : AxesHeap) (x y : ℚ) (ax : Option Nat)
    (r : LinePlot × AxesHeap) (ho : heap.Ordered) (h : lp.appendData heap x y ax = some r) :
    r.2.Ordered := by
  unfold LinePlot.appendData at h
  simp only at h
  split at h
  · split at h
    · split at h
      · rename_i id xm ym _ hxm hym
        cases h
        exact AxesHeap.setRange_ordered _ _ _ ho
          (marginRange_ordered xm ym (minmax_element_le _ _ hxm) (minmax_element_le _ _ hym))
      · cases h
    · cases h; exact ho
  · cases h; exact ho

/-- One call keeps every range ordered. -/
theorem World.call_ordered (w w1 : World) (c : Call) (ho : w.axes.Ordered)
    (h : w.call c = some w1) : w1.axes.Ordered := by
  cases c with
  | plot ax x y style =>
    simp only [World.call, Option.map_eq_some'] at h
    obtain ⟨r, hr, rfl⟩ := h
    exact plot_ordered w ax x y style r ho hr
  | appendData line x y ax =>
    simp only [World.call, World.appendData] at h
    cases hg : w.plots.get? line with
    | none => simp only [hg] at h; cases h
    | some lp =>
      simp only [hg] at h
      cases hr : lp.appendData w.axes x y ax with
      | none => simp only [hr] at h; cases h
      | some r =>
        simp only [hr, Option.some.injEq] at h
        subst h
        exact appendData_ordered lp w.axes x y ax r ho hr
  | setMaxPoints line n =>
    simp only [World.call, Option.map_eq_some'] at h
    obtain ⟨lp, _, rfl⟩ := h
    exact ho
  | setAutoUpdateAxes line enable =>
    simp only [World.call, Option.map_eq_some'] at h
    obtain ⟨lp, _, rfl⟩ := h
    exact ho

/-- A sequence of calls keeps every range ordered. -/
theorem World.run_ordered (calls : List Call) :
    ∀ (w w1 : World), w.axes.Ordered → w.run calls = some w1 → w1.axes.Ordered := by
  induction calls with
  | nil =>
    intro w w1 ho h
    simp only [World.run, Option.some.injEq] at h
    subst h
    exact ho
  | cons c rest ih =>
    intro w w1 ho h
    simp only [World.run] at h
    split at h
    · cases h
    · rename_i w2 hc
      exact ih w2 w1 (World.call_ordered w w2 c ho hc) h

theorem AxesHeap.Fresh.ordered {h : AxesHeap} (hf : h.Fresh) : h.Ordered := by
  intro id a ha
  obtain ⟨f1, f2, f3, f4⟩ := Axes.fields_of_range a _ (hf id a ha)
  simp only at f1 f2 f3 f4
  rw [f1, f2, f3, f4]
  norm_num

/-! ## Lemmas: `appendData` and the Axes heap -/

/-- Without an Axes argument, on a series that has no linked Axes, `appendData`
returns and leaves the heap as it is; the series stays unlinked. -/
theorem appendData_of_unlinked (lp : LinePlot) (heap : AxesHeap) (x y : ℚ)
    (hlink : lp.linkedAxes = none) :
    ∃ lp1, lp.appendData heap x y none = some (lp1, heap) ∧ lp1.linkedAxes = none ∧
      lp1.autoUpdateAxesRange = lp.autoUpdateAxesRange ∧ lp1.maxPoints = lp.maxPoints := by
  unfold LinePlot.appendData
  simp only [hlink, expired, Bool.not_true, Bool.and_false, Bool.false_eq_true, if_false]
  exact ⟨_, rfl, rfl, rfl, rfl⟩

/-- A run of calls on a series keeps the two buffers of equal length. -/
theorem runOps_length_eq (ops : List SeriesOp) :
    ∀ (lp : LinePlot) (heap : AxesHeap) (r : LinePlot × AxesHeap),
      lp.xData.length = lp.yData.length → runOps lp heap ops = some r →
      r.1.xData.length = r.1.yData.length := by
  induction ops with
  | nil =>
    intro lp heap r hl h
    simp only [runOps, Option.some.injEq] at h
    subst h
    exact hl
  | cons op rest ih =>
    intro lp heap r hl h
    simp only [runOps] at h
    cases hop : SeriesOp.apply lp heap op with
    | none => simp only [hop] at h; cases h
    | some r1 =>
      simp only [hop] at h
      refine ih r1.1 r1.2 r ?_ h
      cases op with
      | appendData a b ax =>
        obtain ⟨e1, e2, _, _⟩ := appendData_series lp heap a b ax r1 hop
        rw [e1, e2]
        exact pushEvict_length _ _ _ _ _ hl
      | setMaxPoints n =>
        simp only [SeriesOp.apply, Option.some.injEq] at hop
        subst hop
        exact hl
      | setAutoUpdateAxes enable =>
        simp only [SeriesOp.apply, Option.some.injEq] at hop
        subst hop
        exact hl

/-- One `appendData` never leaves more samples than the larger of the capacity and
the count before the call. -/
theorem appendData_length_le (lp : LinePlot) (heap : AxesHeap) (x y : ℚ) (ax : Option Nat)
    (r : LinePlot × AxesHeap) (h : lp.appendData heap x y ax = some r) :
    r.1.xData.length ≤ max lp.maxPoints lp.xData.length := by
  obtain ⟨e1, _, _, _⟩ := appendData_series lp heap x y ax r h
  rw [e1]
  unfold pushEvict
  simp only
  split
  · simp only [List.length_tail, List.length_append, List.length_singleton]
    omega
  · rename_i hc
    simp only [List.length_append, List.length_singleton] at hc ⊢
    omega

/-- After `setRange` the Axes at the handle carries the new range. -/
theorem AxesHeap.setRange_self (h : AxesHeap) (id : Nat) (r : ℚ × ℚ × ℚ × ℚ) (a : Axes)
    (ha : h id = some a) :
    (h.setRange id r) id = some (a.setDataRange r.1 r.2.1 r.2.2.1 r.2.2.2) := by
  simp [AxesHeap.setRange, ha, AxesHeap.set]

/-! ## Lemmas: binary32 rounding -/

theorem int_log_two_eq (a : ℚ) (e : ℤ) (h1 : (2 : ℚ) ^ e ≤ a) (h2 : a < (2 : ℚ) ^ (e + 1)) :
    Int.log 2 a = e := by
  have ha : 0 < a := lt_of_lt_of_le (zpow_pos (by norm_num) e) h1
  apply le_antisymm
  · have := (Int.lt_zpow_iff_log_lt (b := 2) (by norm_num) (x := e + 1) ha).mp
      (by simpa using h2)
    omega
  · exact (Int.zpow_le_iff_le_log (b := 2) (by norm_num) (x := e) ha).mp (by simpa using h1)

/-- Evaluation of `roundF32` once the binade `e` of `|q|` and the integer part `f` of
`|q| / 2^(e-23)` are known. -/
theorem roundF32_of_floor (q : ℚ) (e f : ℤ) (hq : q ≠ 0) (he : -126 ≤ e)
    (h1 : (2 : ℚ) ^ e ≤ |q|) (h2 : |q| < (2 : ℚ) ^ (e + 1))
    (hf1 : (f : ℚ) ≤ |q| / (2 : ℚ) ^ (e - 23)) (hf2 : |q| / (2 : ℚ) ^ (e - 23) < (f : ℚ) + 1) :
    roundF32 q =
      if (2 : ℚ) ^ (128 : Nat) ≤
          (((if |q| / (2 : ℚ) ^ (e - 23) - (f : ℚ) < 1 / 2 then f
            else if 1 / 2 < |q| / (2 : ℚ) ^ (e - 23) - (f : ℚ) then f + 1
            else if f % 2 = 0 then f else f + 1 : Int) : ℚ) * (2 : ℚ) ^ (e - 23)) then none
      else some (if q < 0 then
          -((((if |q| / (2 : ℚ) ^ (e - 23) - (f : ℚ) < 1 / 2 then f
            else if 1 / 2 < |q| / (2 : ℚ) ^ (e - 23) - (f : ℚ) then f + 1
            else if f % 2 = 0 then f else f + 1 : Int) : ℚ) * (2 : ℚ) ^ (e - 23)))
        else (((if |q| / (2 : ℚ) ^ (e - 23) - (f : ℚ) < 1 / 2 then f
            else if 1 / 2 < |q| / (2 : ℚ) ^ (e - 23) - (f : ℚ) then f + 1
            else if f % 2 = 0 then f else f + 1 : Int) : ℚ) * (2 : ℚ) ^ (e - 23))) := by
  have hlog : Int.log 2 |q| = e := int_log_two_eq _ _ h1 h2
  have hexp : f32Exponent |q| = e := by
    unfold f32Exponent; rw [hlog]; exact max_eq_left he
  have hfl : Int.floor (|q| / (2 : ℚ) ^ (e - 23)) = f := by
    rw [Int.floor_eq_iff]; exact ⟨hf1, hf2⟩
  unfold roundF32 roundHalfEven
  simp only [hq, if_false, hexp, hfl]

theorem roundF32_of_eq_zero (q : ℚ) (h : q = 0) : roundF32 q = some 0 := by
  unfold roundF32
  rw [if_pos h]

/-- The literal `0.05f` is the binary32 rounding of 0.05. -/
theorem roundF32_5_100 : roundF32 (5 / 100) = some f32_0_05 := by
  rw [roundF32_of_floor _ (-5) 13421772 (by norm_num) (by norm_num) (by norm_num [abs_of_pos])
    (by norm_num [abs_of_pos]) (by norm_num [abs_of_pos]) (by norm_num [abs_of_pos])]
  norm_num [abs_of_pos, f32_0_05]

theorem roundF32_one : roundF32 1 = some 1 := by
  rw [roundF32_of_floor _ 0 8388608 (by norm_num) (by norm_num) (by norm_num)
    (by norm_num) (by norm_num) (by norm_num)]
  norm_num

theorem roundF32_neg_one : roundF32 (-1) = some (-1) := by
  rw [roundF32_of_floor _ 0 8388608 (by norm_num) (by norm_num) (by norm_num)
    (by norm_num) (by norm_num) (by norm_num)]
  norm_num

theorem roundF32_six : roundF32 6 = some 6 := by
  rw [roundF32_of_floor _ 2 12582912 (by norm_num) (by norm_num) (by norm_num [abs_of_pos])
    (by norm_num [abs_of_pos]) (by norm_num [abs_of_pos]) (by norm_num [abs_of_pos])]
  norm_num [abs_of_pos]

theorem roundF32_eight : roundF32 8 = some 8 := by
  rw [roundF32_of_floor _ 3 8388608 (by norm_num) (by norm_num) (by norm_num [abs_of_pos])
    (by norm_num [abs_of_pos]) (by norm_num [abs_of_pos]) (by norm_num [abs_of_pos])]
  norm_num [abs_of_pos]

/-- The margin `8 * 0.05f` is a binary32 value. -/
theorem roundF32_margin_eight : roundF32 (8 * f32_0_05) = some (13421773 / 2 ^ 25) := by
  unfold f32_0_05
  rw [roundF32_of_floor _ (-2) 13421773 (by norm_num) (by norm_num) (by norm_num [abs_of_pos])
    (by norm_num [abs_of_pos]) (by norm_num [abs_of_pos]) (by norm_num [abs_of_pos])]
  norm_num [abs_of_pos]

/-- Near `10^8` binary32 values are 8 apart: subtracting 0.4 from `10^8` rounds back
to `10^8`. -/
theorem roundF32_1e8_sub : roundF32 (100000000 - 13421773 / 2 ^ 25) = some 100000000 := by
  rw [roundF32_of_floor _ 26 12499999 (by norm_num) (by norm_num) (by norm_num [abs_of_pos])
    (by norm_num [abs_of_pos]) (by norm_num [abs_of_pos]) (by norm_num [abs_of_pos])]
  norm_num [abs_of_pos]

/-- Adding 0.4 to `10^8 + 8` rounds back to `10^8 + 8`. -/
theorem roundF32_1e8_add : roundF32 (100000008 + 13421773 / 2 ^ 25) = some 100000008 := by
  rw [roundF32_of_floor _ 26 12500001 (by norm_num) (by norm_num) (by norm_num [abs_of_pos])
    (by norm_num [abs_of_pos]) (by norm_num [abs_of_pos]) (by norm_num [abs_of_pos])]
  norm_num [abs_of_pos]

/-- Near 360 binary32 values are `2^-15` apart: `360 - 2^-20` rounds to 360. -/
theorem roundF32_below_360 : roundF32 (-(1 / 1048576) + 360) = some 360 := by
  rw [roundF32_of_floor _ 8 11796479 (by norm_num) (by norm_num) (by norm_num [abs_of_pos])
    (by norm_num [abs_of_pos]) (by norm_num [abs_of_pos]) (by norm_num [abs_of_pos])]
  norm_num [abs_of_pos]

/-- Evaluation of `marginRangeF32` from the eight roundings. -/
theorem marginRangeF32_of (xm ym : ℚ × ℚ) (spanX marginX spanY marginY x0 x1 y0 y1 : ℚ)
    (h1 : roundF32 (xm.2 - xm.1) = some spanX)
    (h2 : roundF32 (spanX * f32_0_05) = some marginX)
    (h3 : roundF32 (ym.2 - ym.1) = some spanY)
    (h4 : roundF32 (spanY * f32_0_05) = some marginY)
    (h5 : roundF32 (xm.1 - marginX) = some x0) (h6 : roundF32 (xm.2 + marginX) = some x1)
    (h7 : roundF32 (ym.1 - marginY) = some y0) (h8 : roundF32 (ym.2 + marginY) = some y1) :
    marginRangeF32 xm ym = some (x0, x1, y0, y1) := by
  unfold marginRangeF32
  rw [h1, Option.some_bind, h2, Option.some_bind, h3, Option.some_bind, h4, Option.some_bind,
    h5, Option.some_bind, h6, Option.some_bind, h7, Option.some_bind, h8, Option.some_bind]

/-- The binary32 range of the extremes `(10^8, 10^8 + 8)` and `(0, 0)`: both margins
are absorbed. -/
theorem marginRangeF32_absorbs :
    marginRangeF32 (100000000, 100000008) (0, 0) = some (100000000, 100000008, 0, 0) := by
  have a1 : roundF32 ((100000008 : ℚ) - 100000000) = some 8 := by
    rw [show ((100000008 : ℚ) - 100000000) = 8 by norm_num]; exact roundF32_eight
  have a3 : roundF32 ((0 : ℚ) - 0) = some 0 := roundF32_of_eq_zero _ (by norm_num)
  have a4 : roundF32 ((0 : ℚ) * f32_0_05) = some 0 := roundF32_of_eq_zero _ (by norm_num)
  have a7 : roundF32 ((0 : ℚ) + 0) = some 0 := roundF32_of_eq_zero _ (by norm_num)
  exact marginRangeF32_of (100000000, 100000008) (0, 0) 8 (13421773 / 2 ^ 25) 0 0
    100000000 100000008 0 0 a1 roundF32_margin_eight a3 a4 roundF32_1e8_sub roundF32_1e8_add
    a3 a7

/-- The binary32 wrapped hue of `-2^-20` is 360, not below 360. -/
theorem wrapHueF32_tiny_negative : wrapHueF32 (-(1 / 1048576)) = some 360 := by
  have hc : Int.ceil ((-(1 / 1048576) : ℚ) / 360) = 0 := by
    rw [Int.ceil_eq_iff]; norm_num
  have hf : fmod (-(1 / 1048576)) 360 = -(1 / 1048576) := by
    unfold fmod truncQ
    rw [if_neg (by norm_num), hc]
    norm_num
  unfold wrapHueF32
  simp only [hf]
  rw [if_pos (by norm_num)]
  exact roundF32_below_360

/-! ## Lemmas: the binary32 runs, the exact hue wrap, a linked series -/

/-- Method `appendDataF32` with a live Axes argument and auto-update on, step by
step. -/
theorem appendDataF32_of_live (self : LinePlot) (heap : AxesHeap) (x y : ℚ) (id : Nat)
    (a : Axes) (xm ym : ℚ × ℚ) (r : ℚ × ℚ × ℚ × ℚ)
    (hauto : self.autoUpdateAxesRange = true) (hlive : heap id = some a)
    (hxm : minmax_element (pushEvict self.xData self.yData self.maxPoints x y).1 = some xm)
    (hym : minmax_element (pushEvict self.xData self.yData self.maxPoints x y).2 = some ym)
    (hr : marginRangeF32 xm ym = some r) :
    self.appendDataF32 heap x y (some id)
      = some ({ self with
                  xData := (pushEvict self.xData self.yData self.maxPoints x y).1,
                  yData := (pushEvict self.xData self.yData self.maxPoints x y).2,
                  linkedAxes := some id },
              heap.setRange id r) := by
  have hne : (pushEvict self.xData self.yData self.maxPoints x y).1.isEmpty = false := by
    cases hb : (pushEvict self.xData self.yData self.maxPoints x y).1 with
    | nil => rw [hb] at hxm; cases hxm
    | cons _ _ => rfl
  unfold LinePlot.appendDataF32
  simp only [hauto, expired, hlive, hne, hxm, hym, hr, Option.isNone_some, Bool.not_false,
    Bool.and_self, if_true, Option.map_some']

/-- On `[0, 6)` the sector cascade returns one of its six sector triples. -/
theorem hsvSector_mem_of_range (hp c x : ℚ) (h0 : 0 ≤ hp) (h6 : hp < 6) :
    hsvSector hp c x ∈
      [(c, x, 0), (x, c, 0), (0, c, x), (0, x, c), (x, 0, c), (c, 0, x)] := by
  have hnf := not_fallbackTaken_of_mem hp h0 h6
  unfold hsvSector
  split_ifs with c0 c1 c2 c3 c4 c5
  · simp
  · simp
  · simp
  · simp
  · simp
  · simp
  · exact absurd ⟨c0, c1, c2, c3, c4, c5⟩ hnf

/-- In exact arithmetic the hue wraps modulo 360: `fromHSV(h + 360*k, s, v, alpha)`
is `fromHSV(h, s, v, alpha)`, the wrapped hue lies in `[0, 360)`, none of the six
sector tests fails together, and the cascade returns one of its six sector triples
whatever `c` and `x` are. -/
theorem fromHSV_hue_wraps_exact (h s v alpha : ℚ) (k : Int) :
    Color.fromHSV (h + 360 * (k : ℚ)) s v alpha = Color.fromHSV h s v alpha ∧
    0 ≤ wrapHue h ∧ wrapHue h < 360 ∧ ¬ fallbackTaken (wrapHue h / 60) ∧
    ∀ c x, hsvSector (wrapHue h / 60) c x ∈
      [(c, x, 0), (x, c, 0), (0, c, x), (0, x, c), (x, 0, c), (c, 0, x)] := by
  obtain ⟨w0, w1, _⟩ := wrapHue_spec h
  have hp0 : 0 ≤ wrapHue h / 60 := div_nonneg w0 (by norm_num)
  have hp6 : wrapHue h / 60 < 6 := by
    rw [div_lt_iff₀ (by norm_num)]; linarith
  refine ⟨?_, w0, w1, not_fallbackTaken_of_mem _ hp0 hp6,
    fun c x => hsvSector_mem_of_range _ c x hp0 hp6⟩
  unfold Color.fromHSV
  rw [wrapHue_add_mul]

/-- C1 (FIFO eviction law). A series constructed empty with capacity `C` (either
setting of the auto-update flag), fed `samples` one `appendData` call at a time (each
call with or without an Axes argument): the construction and the run return, and the
x and y buffers each have exactly `min N C` elements and are the last `min N C`
pushed values in push order. Capacities 0 and 1 are included. -/
theorem C1_fifo_eviction (C : Nat) (auto : Bool) (heap : AxesHeap)
    (samples : List (ℚ × ℚ × Option Nat)) :
    ∃ lp0 r, LinePlot.new [] [] C = some lp0 ∧
      appendAll (lp0.setAutoUpdateAxes auto) heap samples = some r ∧
      r.1.xData.length = min samples.length C ∧
      r.1.yData.length = min samples.length C ∧
      r.1.xData = (samples.map (fun s => s.1)).drop (samples.length - min samples.length C) ∧
      r.1.yData =
        (samples.map (fun s => s.2.1)).drop (samples.length - min samples.length C) := by
  have hnew : LinePlot.new [] [] C = some { xData := [], yData := [], maxPoints := C } := by
    simp [LinePlot.new]
  obtain ⟨r, hr, f1, f2, _, _⟩ :=
    appendAll_history samples
      (LinePlot.setAutoUpdateAxes { xData := [], yData := [], maxPoints := C } auto)
      heap [] [] rfl (by simp [lastN, LinePlot.setAutoUpdateAxes])
      (by simp [lastN, LinePlot.setAutoUpdateAxes])
  simp only [List.nil_append, LinePlot.setAutoUpdateAxes] at f1 f2
  have k : samples.length - min samples.length C = samples.length - C := by omega
  refine ⟨_, r, hnew, hr, ?_, ?_, ?_, ?_⟩
  · rw [f1, lastN_length, List.length_map]
  · rw [f2, lastN_length, List.length_map]
  · rw [f1, k]; simp [lastN]
  · rw [f2, k]; simp [lastN]

/-! ## C2 -/

/-- C2 fails on the code. After `plot(axes, [0,10], [0,10])` on a fresh Axes the range
is `(-0.5, 10.5, -0.5, 10.5)`; a frame on a 100x100 window hands `glOrtho` the
rectangle `[-5.5, 5.5] x [-5.5, 5.5]`, centred on the origin and not on the data
rectangle, and the child polyline emits the sample `(10, 10)` at its raw coordinates:
inside the Axes range, outside the view rectangle. -/
theorem C2_view_misses_data :
    ∃ h w1 a1, plot ⟨fun _ => some {}, []⟩ (some 0) [0, 10] [0, 10] "" = some (h, w1) ∧
      w1.axes 0 = some a1 ∧ a1.range = (-0.5, 10.5, -0.5, 10.5) ∧
      a1.viewRect 100 100 = (-5.5, 5.5, -5.5, 5.5) ∧
      (∀ m : LibM,
        GLCmd.glOrtho (-5.5) 5.5 (-5.5) 5.5 (-1) 1 ∈ a1.draw m w1.plots 100 100 ∧
        GLCmd.glVertex2f 10 10 ∈ a1.draw m w1.plots 100 100) ∧
      (a1.dataXMin ≤ 10 ∧ 10 ≤ a1.dataXMax ∧ a1.dataYMin ≤ 10 ∧ 10 ≤ a1.dataYMax) ∧
      ¬ ((10 : ℚ) ≤ 5.5) := by
  obtain ⟨w1, a1, line, h1, h2, h3, h4, h5, h6, h7⟩ :=
    plot_frame_of_nonempty ⟨fun _ => some {}, []⟩ 0 {} [0, 10] [0, 10] "" _ _ rfl rfl rfl rfl
  have hr : a1.range = (-0.5, 10.5, -0.5, 10.5) := by
    rw [h6]
    simp only [marginRange, List.foldl, minmaxStep]
    norm_num
  obtain ⟨f1, f2, f3, f4⟩ := Axes.fields_of_range a1 _ hr
  simp only at f1 f2 f3 f4
  have hv : a1.viewRect 100 100 = (-5.5, 5.5, -5.5, 5.5) := by
    unfold Axes.viewRect
    rw [Axes.viewSize_of_pos_height _ _ _ (by rw [f3, f4]; norm_num), f1, f2, f3, f4]
    norm_num
  refine ⟨_, w1, a1, h1, h2, hr, hv, fun m => ⟨?_, ?_⟩, ?_, by norm_num⟩
  · have h := Axes.glOrtho_mem_draw m w1.plots a1 100 100 (by decide) (by decide)
    rw [hv] at h
    exact h
  · refine Axes.child_vertex_mem_draw m w1.plots a1 100 100 (by decide) (by decide) 0 line
      (10, 10) ?_ ?_ ?_
    · rw [h7]; simp
    · rw [h3]; simp
    · rw [h4, h5]; simp [lastN]
  · rw [f1, f2, f3, f4]; norm_num

/-! ## C3 -/

/-- C3 (view aspect ratio). For a range with `xMin < xMax`, `yMin < yMax` and a window
with `winW > 0`, `winH > 0`, the view size of `Axes::draw` satisfies
`viewW / viewH = winW / winH` (either branch), and the frame hands the rectangle
`[-viewW/2, viewW/2] x [-viewH/2, viewH/2]` to `glOrtho`; for the range
`(-10,10,-10,10)` and the window 800x600 it is `viewH = 20`, `viewW = 80/3`, i.e.
`[-40/3, 40/3] x [-10, 10]`. -/
theorem C3_view_aspect_ratio (self : Axes) (winW winH : Int)
    (hx : self.dataXMin < self.dataXMax) (hy : self.dataYMin < self.dataYMax)
    (hw : 0 < winW) (hh : 0 < winH) :
    ((self.viewSize winW winH).1 / (self.viewSize winW winH).2 = (winW : ℚ) / (winH : ℚ) ∧
      ∀ (m : LibM) (plots : List LinePlot),
        GLCmd.glOrtho (-(self.viewSize winW winH).1 / 2) ((self.viewSize winW winH).1 / 2)
            (-(self.viewSize winW winH).2 / 2) ((self.viewSize winW winH).2 / 2) (-1) 1
          ∈ self.draw m plots winW winH) ∧
    ((self.setDataRange (-10) 10 (-10) 10).viewSize 800 600 = (80 / 3, 20) ∧
      (self.setDataRange (-10) 10 (-10) 10).viewRect 800 600 = (-40 / 3, 40 / 3, -10, 10)) := by
  have hW : (0 : ℚ) < (winW : ℚ) := by exact_mod_cast hw
  have hH : (0 : ℚ) < (winH : ℚ) := by exact_mod_cast hh
  have hdw : 0 < self.dataXMax - self.dataXMin := sub_pos.mpr hx
  have hdh : 0 < self.dataYMax - self.dataYMin := sub_pos.mpr hy
  refine ⟨⟨?_, fun m plots => Axes.glOrtho_mem_draw m plots self winW winH hw hh⟩, ?_, ?_⟩
  · rw [Axes.viewSize_of_pos_height self winW winH hy]
    split_ifs
    · simp only
      field_simp
      ring
    · simp only
      field_simp
      ring
  · rw [Axes.viewSize_of_pos_height _ _ _ (by simp [Axes.setDataRange])]
    simp only [Axes.setDataRange]
    norm_num
  · unfold Axes.viewRect
    rw [Axes.viewSize_of_pos_height _ _ _ (by simp [Axes.setDataRange])]
    simp only [Axes.setDataRange]
    norm_num

/-- Witness for C3: the range `(0, 4, 0, 1)` on a 100x200 window (the width is held). -/
theorem C3_view_aspect_ratio_witness :
    ((({} : Axes).setDataRange 0 4 0 1).viewSize 100 200).1
        / ((({} : Axes).setDataRange 0 4 0 1).viewSize 100 200).2
      = ((100 : Int) : ℚ) / ((200 : Int) : ℚ) :=
  (C3_view_aspect_ratio (({} : Axes).setDataRange 0 4 0 1) 100 200
    (by simp [Axes.setDataRange]) (by simp [Axes.setDataRange]) (by decide) (by decide)).1.1

/-! ## C4 -/

/-- C4, as stated, fails on the binary32 code. The series buffering `x = [10^8]`,
`y = [0]` (capacity 200, auto-update on) receives `appendData(10^8 + 8, 0, ax)`: the
buffered x are `10^8` and `10^8 + 8`, span 8, margin `8 * 0.05f`; near `10^8` the
`float` values are 8 apart, so `xMin - marginX` rounds back to `10^8` and
`xMax + marginX` to `10^8 + 8`. The gap is 0 while the span is 8, and `xMin` is not
`m - 0.05*(M - m)`. -/
theorem C4_counterexample :
    ∃ r a1,
      (LinePlot.mk [100000000] [0] Color.Blue 2 LineStyle.LINE_SOLID MarkerStyle.MARKER_NONE
        Color.Red 5 200 true none).appendDataF32 (fun _ => some {}) 100000008 0 (some 0)
        = some r ∧
      r.2 0 = some a1 ∧ r.1.xData = [100000000, 100000008] ∧
      IsMinOf 100000000 r.1.xData ∧ IsMaxOf 100000008 r.1.xData ∧
      a1.dataXMin = 100000000 ∧ a1.dataXMax = 100000008 ∧
      (100000000 : ℚ) - a1.dataXMin = 0 ∧ ¬ ((100000008 : ℚ) - 100000000 = 0) ∧
      ¬ (a1.dataXMin = 100000000 - 0.05 * (100000008 - 100000000)) := by
  have hb : pushEvict [100000000] [0] 200 100000008 0
      = ([100000000, 100000008], [0, 0]) := by
    simp [pushEvict]
  have hxm : minmax_element [(100000000 : ℚ), 100000008] = some (100000000, 100000008) := by
    simp only [minmax_element, List.foldl, minmaxStep]
    norm_num
  have hym : minmax_element [(0 : ℚ), 0] = some (0, 0) := by
    simp only [minmax_element, List.foldl, minmaxStep]
    norm_num
  have h := appendDataF32_of_live
    (LinePlot.mk [100000000] [0] Color.Blue 2 LineStyle.LINE_SOLID MarkerStyle.MARKER_NONE
      Color.Red 5 200 true none) (fun _ => some {}) 100000008 0 0 {}
    (100000000, 100000008) (0, 0) (100000000, 100000008, 0, 0) rfl rfl
    (by rw [hb]; exact hxm) (by rw [hb]; exact hym) marginRangeF32_absorbs
  refine ⟨_, ({} : Axes).setDataRange 100000000 100000008 0 0, h, ?_, ?_, ?_, ?_, rfl, rfl,
    ?_, ?_, ?_⟩
  · exact AxesHeap.setRange_self (fun _ => some {}) 0 (100000000, 100000008, 0, 0) {} rfl
  · simp only [hb]
  · simp only [hb]
    exact ⟨by simp, by intro e he; simp at he; rcases he with rfl | rfl <;> norm_num⟩
  · simp only [hb]
    exact ⟨by simp, by intro e he; simp at he; rcases he with rfl | rfl <;> norm_num⟩
  · simp only [Axes.setDataRange]
    norm_num
  · norm_num
  · simp only [Axes.setDataRange]
    norm_num

/-- C4, amended (auto-range after append, in exact arithmetic). For a series with
equal-length buffers, auto-update enabled and capacity at least 1, `appendData(x, y,
ax)` with a live Axes `ax` returns, and in exact arithmetic the range of `ax`
afterwards is `m - 0.05*(M - m)` / `M + 0.05*(M - m)` on each axis, `m` and `M` being
the minimum and maximum of the buffer after eviction; so the range brackets the
buffered extremes, the gap on each side is 5% of the buffered span, and the gap is 0
iff the span is 0. -/
theorem C4_auto_range_after_append (self : LinePlot) (heap : AxesHeap) (x y : ℚ) (id : Nat)
    (a : Axes) (hauto : self.autoUpdateAxesRange = true) (hcap : 1 ≤ self.maxPoints)
    (hlive : heap id = some a) (hlen : self.xData.length = self.yData.length) :
    ∃ r a1 mx Mx my My,
      self.appendData heap x y (some id) = some r ∧ r.2 id = some a1 ∧
      r.1.xData = (pushEvict self.xData self.yData self.maxPoints x y).1 ∧
      r.1.yData = (pushEvict self.xData self.yData self.maxPoints x y).2 ∧
      IsMinOf mx r.1.xData ∧ IsMaxOf Mx r.1.xData ∧
      IsMinOf my r.1.yData ∧ IsMaxOf My r.1.yData ∧
      (a1.dataXMin = mx - 0.05 * (Mx - mx) ∧ a1.dataXMax = Mx + 0.05 * (Mx - mx) ∧
        a1.dataXMin ≤ mx ∧ Mx ≤ a1.dataXMax ∧
        mx - a1.dataXMin = 0.05 * (Mx - mx) ∧ a1.dataXMax - Mx = 0.05 * (Mx - mx) ∧
        (mx - a1.dataXMin = 0 ↔ Mx - mx = 0) ∧ (a1.dataXMax - Mx = 0 ↔ Mx - mx = 0)) ∧
      (a1.dataYMin = my - 0.05 * (My - my) ∧ a1.dataYMax = My + 0.05 * (My - my) ∧
        a1.dataYMin ≤ my ∧ My ≤ a1.dataYMax ∧
        my - a1.dataYMin = 0.05 * (My - my) ∧ a1.dataYMax - My = 0.05 * (My - my) ∧
        (my - a1.dataYMin = 0 ↔ My - my = 0) ∧ (a1.dataYMax - My = 0 ↔ My - my = 0)) := by
  have hx := pushEvict_fst_ne_nil self.xData self.yData self.maxPoints x y hcap
  have hl := pushEvict_length self.xData self.yData self.maxPoints x y hlen
  have hy : (pushEvict self.xData self.yData self.maxPoints x y).2 ≠ [] := by
    intro h0; rw [h0] at hl; exact hx (List.length_eq_zero.mp hl)
  obtain ⟨xm, hxm⟩ := minmax_element_isSome _ hx
  obtain ⟨ym, hym⟩ := minmax_element_isSome _ hy
  obtain ⟨hmx, hMx⟩ := minmax_element_spec _ _ hxm
  obtain ⟨hmy, hMy⟩ := minmax_element_spec _ _ hym
  refine ⟨_, a.setDataRange (marginRange xm ym).1 (marginRange xm ym).2.1
      (marginRange xm ym).2.2.1 (marginRange xm ym).2.2.2, xm.1, xm.2, ym.1, ym.2,
    appendData_of_live self heap x y id a xm ym hauto hlive hxm hym, ?_, rfl, rfl,
    hmx, hMx, hmy, hMy, ?_, ?_⟩
  · simp [AxesHeap.setRange, hlive, AxesHeap.set]
  · exact margin_facts xm.1 xm.2 _ _ (hmx.2 _ hMx.1) rfl rfl
  · exact margin_facts ym.1 ym.2 _ _ (hmy.2 _ hMy.1) rfl rfl

/-- Witness for C4: the series holding `(0, 0)` with capacity 1 receives `(3, 7)`; the
old sample is evicted and the range collapses onto the new one. -/
theorem C4_auto_range_after_append_witness :
    ∃ r a1, (LinePlot.mk [0] [0] Color.Blue 2 LineStyle.LINE_SOLID MarkerStyle.MARKER_NONE
        Color.Red 5 1 true none).appendData (fun _ => some {}) 3 7 (some 0) = some r ∧
      r.2 0 = some a1 ∧ r.1.xData = [3] ∧ r.1.yData = [7] ∧
      a1.dataXMin = 3 ∧ a1.dataXMax = 3 ∧ a1.dataYMin = 7 ∧ a1.dataYMax = 7 := by
  obtain ⟨r, a1, mx, Mx, my, My, h1, h2, h3, h4, h5, h6, h7, h8, hX, hY⟩ :=
    C4_auto_range_after_append
      (LinePlot.mk [0] [0] Color.Blue 2 LineStyle.LINE_SOLID MarkerStyle.MARKER_NONE
        Color.Red 5 1 true none) (fun _ => some {}) 3 7 0 {} rfl (le_refl 1) rfl rfl
  have e3 : r.1.xData = [3] := by rw [h3]; simp [pushEvict]
  have e4 : r.1.yData = [7] := by rw [h4]; simp [pushEvict]
  rw [e3] at h5 h6
  rw [e4] at h7 h8
  have m1 : mx = 3 := by simpa using h5.1
  have m2 : Mx = 3 := by simpa using h6.1
  have m3 : my = 7 := by simpa using h7.1
  have m4 : My = 7 := by simpa using h8.1
  subst m1 m2 m3 m4
  refine ⟨r, a1, h1, h2, e3, e4, ?_, ?_, ?_, ?_⟩
  · rw [hX.1]; norm_num
  · rw [hX.2.1]; norm_num
  · rw [hY.1]; norm_num
  · rw [hY.2.1]; norm_num

/-! ## C5 -/

/-- C6 (constructor keeps the tail). For `x`, `y` of equal length `n` and any capacity
`C` the constructor returns a series whose buffers are exactly the last `min n C`
elements of `x` and of `y` in their original order, the inputs unchanged when
`n ≤ C`; for `x=[0,1,2]`, `y=[0,1,0]`, `C=2` the buffers are `[1,2]` and `[1,0]`. -/
theorem C6_constructor_keeps_tail (x y : List ℚ) (C : Nat) (h : x.length = y.length) :
    (∃ lp, LinePlot.new x y C = some lp ∧
      lp.xData = x.drop (x.length - min x.length C) ∧
      lp.yData = y.drop (y.length - min y.length C) ∧
      lp.xData.length = min x.length C ∧ lp.yData.length = min y.length C ∧
      lp.maxPoints = C ∧
      (x.length ≤ C → lp.xData = x ∧ lp.yData = y)) ∧
    (∃ lp, LinePlot.new [0, 1, 2] [0, 1, 0] 2 = some lp ∧
      lp.xData = [1, 2] ∧ lp.yData = [1, 0]) := by
  constructor
  · refine ⟨_, LinePlot.new_of_length_eq x y C h, ?_, ?_, ?_, ?_, rfl, ?_⟩
    · have k : x.length - min x.length C = x.length - C := by omega
      rw [k]; rfl
    · have k : y.length - min y.length C = y.length - C := by omega
      rw [k]; rfl
    · exact lastN_length x C
    · exact lastN_length y C
    · intro hle
      exact ⟨lastN_of_le x C hle, lastN_of_le y C (by omega)⟩
  · exact ⟨_, LinePlot.new_of_length_eq [0, 1, 2] [0, 1, 0] 2 rfl, rfl, rfl⟩

/-- Witness for C6: two samples under capacity 1. -/
theorem C6_constructor_keeps_tail_witness :
    ∃ lp, LinePlot.new [3, 4] [5, 6] 1 = some lp ∧ lp.xData = [4] ∧ lp.yData = [6] := by
  obtain ⟨lp, h1, h2, h3, _⟩ := (C6_constructor_keeps_tail [3, 4] [5, 6] 1 rfl).1
  exact ⟨lp, h1, by simpa using h2, by simpa using h3⟩

/-! ## C7 -/

/-- C7 fails on the code for a data rectangle of zero height. After
`plot(axes, [1,2,3], [2,2,2])` on a fresh Axes the range is `(0.9, 3.1, 2, 2)`; a frame
on an 800x600 window divides the data width by the zero height (`+inf`), does not
return early, hands `glOrtho` the rectangle `[-1.1, 1.1] x [-0.825, 0.825]` and draws
the children. -/
theorem C7_zero_height_is_drawn :
    ∃ h w1 a1, plot ⟨fun _ => some {}, []⟩ (some 0) [1, 2, 3] [2, 2, 2] "" = some (h, w1) ∧
      w1.axes 0 = some a1 ∧ a1.range = (0.9, 3.1, 2, 2) ∧
      a1.dataYMax - a1.dataYMin = 0 ∧
      fdiv (a1.dataXMax - a1.dataXMin) (a1.dataYMax - a1.dataYMin) = FloatVal.posInf ∧
      (∀ m : LibM,
        a1.draw m w1.plots 800 600 ≠ [] ∧
        GLCmd.glOrtho (-1.1) 1.1 (-0.825) 0.825 (-1) 1 ∈ a1.draw m w1.plots 800 600 ∧
        GLCmd.glVertex2f 1 2 ∈ a1.draw m w1.plots 800 600) := by
  obtain ⟨w1, a1, line, h1, h2, h3, h4, h5, h6, h7⟩ :=
    plot_frame_of_nonempty ⟨fun _ => some {}, []⟩ 0 {} [1, 2, 3] [2, 2, 2] "" _ _
      rfl rfl rfl rfl
  have hr : a1.range = (0.9, 3.1, 2, 2) := by
    rw [h6]
    simp only [marginRange, List.foldl, minmaxStep]
    norm_num
  obtain ⟨f1, f2, f3, f4⟩ := Axes.fields_of_range a1 _ hr
  simp only at f1 f2 f3 f4
  have hd : fdiv (a1.dataXMax - a1.dataXMin) (a1.dataYMax - a1.dataYMin) = FloatVal.posInf := by
    rw [f1, f2, f3, f4]
    unfold fdiv
    norm_num
  have hv : a1.viewRect 800 600 = (-1.1, 1.1, -0.825, 0.825) := by
    unfold Axes.viewRect Axes.viewSize
    simp only [hd, fgt]
    rw [f1, f2]
    norm_num
  have ho := fun m => Axes.glOrtho_mem_draw m w1.plots a1 800 600 (by decide) (by decide)
  rw [hv] at ho
  refine ⟨_, w1, a1, h1, h2, hr, by rw [f3, f4]; norm_num, hd, fun m => ⟨?_, ho m, ?_⟩⟩
  · exact List.ne_nil_of_mem (ho m)
  · refine Axes.child_vertex_mem_draw m w1.plots a1 800 600 (by decide) (by decide) 0 line
      (1, 2) ?_ ?_ ?_
    · rw [h7]; simp
    · rw [h3]; simp
    · rw [h4, h5]; simp [lastN]

/-! ## C8 -/

/-- C8 (style decision table). For every style string `s`, the color, line pattern and
marker that `plot` gives the new series (live Axes, inputs of equal length) are those
of the reference table `refStyle s`, category by category; the empty string gives
(blue, solid, none). -/
theorem C8_style_decision_table (w : World) (id : Nat) (a : Axes) (x y : List ℚ) (s : String)
    (hlive : w.axes id = some a) (hlen : x.length = y.length) :
    (∃ h w1 line, plot w (some id) x y s = some (h, w1) ∧ w1.plots.get? h = some line ∧
      line.lineColor = refColor s ∧ line.lineStyle = refPattern s ∧
      line.markerStyle = refMarker s ∧ line.styleTuple = refStyle s) ∧
    refStyle "" = (Color.Blue, LineStyle.LINE_SOLID, MarkerStyle.MARKER_NONE) := by
  constructor
  · obtain ⟨h, w1, h1, h2⟩ := plot_returns_styled w id a x y s hlive hlen
    have e1 : ∀ line : LinePlot, line.lineColor = Color.Blue →
        (applyStyle line s).lineColor = refColor s := by
      intro line hb
      rw [applyStyle_lineColor, hb]; unfold refColor; split_ifs <;> rfl
    have e2 : ∀ line : LinePlot, line.lineStyle = LineStyle.LINE_SOLID →
        (applyStyle line s).lineStyle = refPattern s := by
      intro line hb
      rw [applyStyle_lineStyle, hb]; rfl
    have e3 : ∀ line : LinePlot, line.markerStyle = MarkerStyle.MARKER_NONE →
        (applyStyle line s).markerStyle = refMarker s := by
      intro line hb
      rw [applyStyle_markerStyle, hb]; rfl
    refine ⟨h, w1, _, h1, h2, e1 _ rfl, e2 _ rfl, e3 _ rfl, ?_⟩
    unfold LinePlot.styleTuple refStyle
    rw [e1 _ rfl, e2 _ rfl, e3 _ rfl]
  · decide

/-- Witness for C8: `plot(axes, [], [], "g:s")` on a fresh Axes at handle 0 gives a
green, dotted series with square markers. -/
theorem C8_style_decision_table_witness :
    ∃ h w1 line, plot ⟨fun _ => some {}, []⟩ (some 0) [] [] "g:s" = some (h, w1) ∧
      w1.plots.get? h = some line ∧
      line.styleTuple
        = (Color.Green, LineStyle.LINE_DOTTED, MarkerStyle.MARKER_SQUARE) := by
  obtain ⟨h, w1, line, h1, h2, _, _, _, h6⟩ :=
    (C8_style_decision_table ⟨fun _ => some {}, []⟩ 0 {} [] [] "g:s" rfl rfl).1
  exact ⟨h, w1, line, h1, h2, h6.trans (by decide)⟩

/-! ## C9 -/

/-- C9 (style order-independence). For a color token `c`, a line token `l` and a
marker token `m`, the style block gives a series the same (color, pattern, marker)
whichever of the six orders the three tokens are concatenated in, whatever the series
was before; `"o--b"` parses like `"b--o"`; and parsing is a function of the string, so
parsing twice gives the same tuple. -/
theorem C9_style_order_independent (c l m : String) (line : LinePlot)
    (hc : c ∈ ["r", "g", "b"]) (hl : l ∈ ["-", "--", ":", "-."]) (hm : m ∈ ["o", "s", "^"]) :
    ((applyStyle line (c ++ m ++ l)).styleTuple = (applyStyle line (c ++ l ++ m)).styleTuple ∧
      (applyStyle line (l ++ c ++ m)).styleTuple = (applyStyle line (c ++ l ++ m)).styleTuple ∧
      (applyStyle line (l ++ m ++ c)).styleTuple = (applyStyle line (c ++ l ++ m)).styleTuple ∧
      (applyStyle line (m ++ c ++ l)).styleTuple = (applyStyle line (c ++ l ++ m)).styleTuple ∧
      (applyStyle line (m ++ l ++ c)).styleTuple
        = (applyStyle line (c ++ l ++ m)).styleTuple) ∧
    (applyStyle line "o--b").styleTuple = (applyStyle line "b--o").styleTuple ∧
    (∀ s t : String, s = t → (applyStyle line s).styleTuple = (applyStyle line t).styleTuple) := by
  refine ⟨?_, rfl, fun s t e => by rw [e]⟩
  simp only [List.mem_cons, List.mem_singleton, List.not_mem_nil, or_false] at hc hl hm
  rcases hc with rfl | rfl | rfl <;> rcases hl with rfl | rfl | rfl | rfl <;>
    rcases hm with rfl | rfl | rfl <;> exact ⟨rfl, rfl, rfl, rfl, rfl⟩

/-- Witness for C9: the tokens `g`, `-.`, `^` on a red dashed circle-marked series. -/
theorem C9_style_order_independent_witness :
    (applyStyle (LinePlot.mk [] [] Color.Red 2 LineStyle.LINE_DASHED MarkerStyle.MARKER_CIRCLE
        Color.Red 5 200 true none) "^-.g").styleTuple
      = (applyStyle (LinePlot.mk [] [] Color.Red 2 LineStyle.LINE_DASHED
          MarkerStyle.MARKER_CIRCLE Color.Red 5 200 true none) "g-.^").styleTuple :=
  (C9_style_order_independent "g" "-." "^"
    (LinePlot.mk [] [] Color.Red 2 LineStyle.LINE_DASHED MarkerStyle.MARKER_CIRCLE
      Color.Red 5 200 true none) (by decide) (by decide) (by decide)).1.2.2.2.2

/-! ## C10 -/

/-- C10, as stated, fails: the style string `"--.:"` contains both `:` and `-.`, yet
`plot` gives the new series the dashed pattern, because the `--` test comes first. -/
theorem C10_counterexample :
    [':'] <:+: "--.:".data ∧ ['-', '.'] <:+: "--.:".data ∧
    (plot ⟨fun _ => some {}, []⟩ (some 0) [] [] "--.:").map
        (fun r => r.2.plots.map LinePlot.lineStyle)
      = some [LineStyle.LINE_DASHED] ∧
    LineStyle.LINE_DASHED ≠ LineStyle.LINE_DOTTED := by
  decide

/-- C10, amended (dotted before dash-dot). For every style string that contains both
`:` and `-.` and does not contain `--`, the line pattern `plot` gives the new series
(live Axes, inputs of equal length) is dotted. -/
theorem C10_dotted_before_dash_dot (w : World) (id : Nat) (a : Axes) (x y : List ℚ)
    (s : String) (hlive : w.axes id = some a) (hlen : x.length = y.length)
    (hcolon : [':'] <:+: s.data) (_hdd : ['-', '.'] <:+: s.data)
    (hdash : ¬ ['-', '-'] <:+: s.data) :
    ∃ h w1 line, plot w (some id) x y s = some (h, w1) ∧ w1.plots.get? h = some line ∧
      line.lineStyle = LineStyle.LINE_DOTTED := by
  obtain ⟨h, w1, h1, h2⟩ := plot_returns_styled w id a x y s hlive hlen
  refine ⟨h, w1, _, h1, h2, ?_⟩
  rw [applyStyle_lineStyle, if_neg hdash, if_pos hcolon]

/-- Witness for C10 amended: the style string `":-."`. -/
theorem C10_dotted_before_dash_dot_witness :
    ∃ h w1 line, plot ⟨fun _ => some {}, []⟩ (some 0) [1] [2] ":-." = some (h, w1) ∧
      w1.plots.get? h = some line ∧ line.lineStyle = LineStyle.LINE_DOTTED :=
  C10_dotted_before_dash_dot ⟨fun _ => some {}, []⟩ 0 {} [1] [2] ":-." rfl rfl
    (by decide) (by decide) (by decide)

/-! ## C11 -/

/-- C11 (linspace). For every `start`, `end` and `N ≥ 1`, `linspace(start, end, N)`
returns exactly `N` values, element `i` being `start + i*(end - start)/max(1, N-1)`;
for `N ≥ 2` the first element is `start` and the last is `end`; for `N = 1` the single
element is `start`. -/
theorem C11_linspace (start end_ : ℚ) (N : Int) (hN : 1 ≤ N) :
    ∃ l, linspace start end_ N = some l ∧ (l.length : Int) = N ∧
      (∀ i : Nat, (i : Int) < N →
        l[i]? = some (start + (i : ℚ) * (end_ - start) / ((max 1 (N - 1) : Int) : ℚ))) ∧
      (2 ≤ N → l.head? = some start ∧ l.getLast? = some end_) ∧
      (N = 1 → l = [start]) := by
  have hneg : ¬ N < 0 := by omega
  have hlen : ((List.range N.toNat).map (fun i : Nat =>
      start + (i : ℚ) * ((end_ - start) / ((max 1 (N - 1) : Int) : ℚ)))).length = N.toNat := by
    simp
  have helem : ∀ i : Nat, (i : Int) < N →
      ((List.range N.toNat).map (fun i : Nat =>
        start + (i : ℚ) * ((end_ - start) / ((max 1 (N - 1) : Int) : ℚ))))[i]?
      = some (start + (i : ℚ) * (end_ - start) / ((max 1 (N - 1) : Int) : ℚ)) := by
    intro i hi
    have hi2 : i < N.toNat := by omega
    rw [List.getElem?_map, List.getElem?_range hi2]
    simp only [Option.map_some']
    congr 1
    ring
  refine ⟨_, by unfold linspace; rw [if_neg hneg], ?_, helem, ?_, ?_⟩
  · rw [hlen]; omega
  · intro h2
    have hmax : max 1 (N - 1) = N - 1 := max_eq_right (by omega)
    constructor
    · rw [List.head?_eq_getElem?, helem 0 (by omega)]
      simp
    · rw [List.getLast?_eq_getElem?, hlen, helem (N.toNat - 1) (by omega), hmax]
      have hc : ((N.toNat - 1 : Nat) : ℚ) = ((N - 1 : Int) : ℚ) := by
        have : ((N.toNat - 1 : Nat) : Int) = N - 1 := by omega
        exact_mod_cast this
      have hne : (N : ℚ) - 1 ≠ 0 := by
        have : (N : ℚ) ≠ 1 := by exact_mod_cast (show N ≠ 1 by omega)
        exact sub_ne_zero.mpr this
      rw [hc]
      push_cast
      congr 1
      field_simp
  · intro h1
    subst h1
    simp [List.range_succ]

/-- Witness for C11: `linspace(0, 1, 3)` is `[0, 1/2, 1]`. -/
theorem C11_linspace_witness :
    ∃ l, linspace 0 1 3 = some l ∧ (l.length : Int) = 3 ∧ l[1]? = some (1 / 2) ∧
      l.head? = some 0 ∧ l.getLast? = some 1 := by
  obtain ⟨l, h1, h2, h3, h4, _⟩ := C11_linspace 0 1 3 (by decide)
  refine ⟨l, h1, h2, ?_, (h4 (by decide)).1, (h4 (by decide)).2⟩
  rw [h3 1 (by decide)]
  norm_num

/-! ## C17 -/

/-- C14, as stated, fails: `fromHSV(0, 0, 2, 1)` is `(2, 2, 2, 1)`; the value 2 is not
clamped and the red channel lies outside `[0, 1]`. -/
theorem C14_counterexample :
    Color.fromHSV 0 0 2 1 = ⟨2, 2, 2, 1⟩ ∧ ¬ ((Color.fromHSV 0 0 2 1).r ≤ 1) := by
  have h : Color.fromHSV 0 0 2 1 = ⟨2, 2, 2, 1⟩ := by simp [Color.fromHSV]
  rw [h]
  exact ⟨rfl, by norm_num⟩

/-- C14, amended (channels in range for inputs in range). For every hue and every
saturation, value and alpha in `[0, 1]`, `fromHSV` returns a color (it is total: no
input is rejected) whose four channels lie in `[0, 1]`. -/
theorem C14_channels_in_unit_interval (h s v alpha : ℚ)
    (hs0 : 0 ≤ s) (hs1 : s ≤ 1) (hv0 : 0 ≤ v) (hv1 : v ≤ 1)
    (ha0 : 0 ≤ alpha) (ha1 : alpha ≤ 1) :
    (0 ≤ (Color.fromHSV h s v alpha).r ∧ (Color.fromHSV h s v alpha).r ≤ 1) ∧
    (0 ≤ (Color.fromHSV h s v alpha).g ∧ (Color.fromHSV h s v alpha).g ≤ 1) ∧
    (0 ≤ (Color.fromHSV h s v alpha).b ∧ (Color.fromHSV h s v alpha).b ≤ 1) ∧
    (0 ≤ (Color.fromHSV h s v alpha).a ∧ (Color.fromHSV h s v alpha).a ≤ 1) := by
  obtain ⟨e1, e2, e3⟩ := fromHSV_extremes h s v alpha hs0 hs1 hv0
  have hm : 0 ≤ v * (1 - s) := mul_nonneg hv0 (by linarith)
  have r1 : (Color.fromHSV h s v alpha).r ≤ v := by
    exact le_trans (le_trans (le_max_left _ _) (le_max_left _ _)) (le_of_eq e1)
  have g1 : (Color.fromHSV h s v alpha).g ≤ v := by
    exact le_trans (le_trans (le_max_right _ _) (le_max_left _ _)) (le_of_eq e1)
  have b1 : (Color.fromHSV h s v alpha).b ≤ v := by
    exact le_trans (le_max_right _ _) (le_of_eq e1)
  have r0 : v * (1 - s) ≤ (Color.fromHSV h s v alpha).r := by
    exact le_trans (le_of_eq e2.symm) (le_trans (min_le_left _ _) (min_le_left _ _))
  have g0 : v * (1 - s) ≤ (Color.fromHSV h s v alpha).g := by
    exact le_trans (le_of_eq e2.symm) (le_trans (min_le_left _ _) (min_le_right _ _))
  have b0 : v * (1 - s) ≤ (Color.fromHSV h s v alpha).b := by
    exact le_trans (le_of_eq e2.symm) (min_le_right _ _)
  rw [e3]
  exact ⟨⟨by linarith, by linarith⟩, ⟨by linarith, by linarith⟩, ⟨by linarith, by linarith⟩,
    ha0, ha1⟩

/-- Witness for C14 amended: hue 400, saturation 1/2, value 1/2, alpha 1. -/
theorem C14_channels_in_unit_interval_witness :
    0 ≤ (Color.fromHSV 400 (1 / 2) (1 / 2) 1).r ∧ (Color.fromHSV 400 (1 / 2) (1 / 2) 1).r ≤ 1 :=
  (C14_channels_in_unit_interval 400 (1 / 2) (1 / 2) 1 (by norm_num) (by norm_num)
    (by norm_num) (by norm_num) (by norm_num) (by norm_num)).1

/-! ## C15 -/

/-- C15 fails on the binary32 code for a tiny negative hue. For `h = -2^-20`:
`fmod(h, 360)` is `h`, and `h += 360.0f` rounds to exactly 360, so the wrapped hue is
not below 360; `hp = 360 / 60.0f` is 6, all six sector tests fail, the cascade takes
its all-zero fallback for every `c`, `x`, and `fromHSV(-2^-20, 1, 1, 1)` is black. In
exact arithmetic the same call has maximum channel 1 (`fromHSV_hue_wraps_exact` is the
exact statement). -/
theorem C15_tiny_negative_hue_takes_fallback :
    wrapHueF32 (-(1 / 1048576)) = some 360 ∧ ¬ ((360 : ℚ) < 360) ∧
    roundF32 (360 / 60) = some 6 ∧ fallbackTaken 6 ∧
    (∀ c x : ℚ, hsvSector 6 c x = (0, 0, 0)) ∧
    Color.fromHSVF32 (-(1 / 1048576)) 1 1 1 = some Color.Black ∧
    max (max (Color.fromHSV (-(1 / 1048576)) 1 1 1).r (Color.fromHSV (-(1 / 1048576)) 1 1 1).g)
      (Color.fromHSV (-(1 / 1048576)) 1 1 1).b = 1 := by
  have hfb : fallbackTaken 6 := by
    unfold fallbackTaken
    norm_num
  have hsec : ∀ c x : ℚ, hsvSector 6 c x = (0, 0, 0) :=
    fun c x => hsvSector_of_fallbackTaken 6 c x hfb
  have b2 : roundF32 ((360 : ℚ) / 60) = some 6 := by
    rw [show ((360 : ℚ) / 60) = 6 by norm_num]; exact roundF32_six
  have b1 : roundF32 ((1 : ℚ) * 1) = some 1 := by
    rw [show ((1 : ℚ) * 1) = 1 by norm_num]; exact roundF32_one
  have hf : fmod 6 2 = 0 :=
    fmod_eq_of_nonneg 6 2 0 3 (by norm_num) (by norm_num) (le_refl _) (by norm_num)
      (by norm_num)
  have b3 : roundF32 (fmod 6 2 - 1) = some (-1) := by
    rw [hf, show ((0 : ℚ) - 1) = -1 by norm_num]; exact roundF32_neg_one
  have b4 : roundF32 (1 - |(-1 : ℚ)|) = some 0 := roundF32_of_eq_zero _ (by norm_num)
  have b5 : roundF32 ((1 : ℚ) * 0) = some 0 := roundF32_of_eq_zero _ (by norm_num)
  have b6 : roundF32 ((1 : ℚ) - 1) = some 0 := roundF32_of_eq_zero _ (by norm_num)
  have b7 : roundF32 ((0 : ℚ) + 0) = some 0 := roundF32_of_eq_zero _ (by norm_num)
  refine ⟨wrapHueF32_tiny_negative, by norm_num, b2, hfb, hsec, ?_,
    (fromHSV_extremes _ 1 1 1 (by norm_num) (by norm_num) (by norm_num)).1⟩
  unfold Color.fromHSVF32
  rw [wrapHueF32_tiny_negative, Option.some_bind, if_neg (by norm_num), b1, Option.some_bind,
    b2, Option.some_bind, b3, Option.some_bind, b4, Option.some_bind, b5, Option.some_bind,
    b6, Option.some_bind, hsec 1 0]
  simp only [b7, Option.some_bind]
  rfl

/-! ## C18 -/

/-- C18 (HSV extremes). For every hue and every `s`, `v` in `[0, 1]` the color
`fromHSV(h, s, v, alpha)` has `max(r, g, b) = v`, `min(r, g, b) = v*(1 - s)` and alpha
channel `alpha`; `s = 0` gives the gray `r = g = b = v`; and `fromHSV(0,1,1)`,
`fromHSV(120,1,1)`, `fromHSV(240,1,1)` (default alpha 1) are `Red`, `Green`, `Blue`. -/
theorem C18_hsv_extremes (h s v alpha : ℚ)
    (hs0 : 0 ≤ s) (hs1 : s ≤ 1) (hv0 : 0 ≤ v) (_hv1 : v ≤ 1) :
    (max (max (Color.fromHSV h s v alpha).r (Color.fromHSV h s v alpha).g)
        (Color.fromHSV h s v alpha).b = v ∧
      min (min (Color.fromHSV h s v alpha).r (Color.fromHSV h s v alpha).g)
        (Color.fromHSV h s v alpha).b = v * (1 - s) ∧
      (Color.fromHSV h s v alpha).a = alpha) ∧
    Color.fromHSV h 0 v alpha = ⟨v, v, v, alpha⟩ ∧
    Color.fromHSV 0 1 1 1 = Color.Red ∧
    Color.fromHSV 120 1 1 1 = Color.Green ∧
    Color.fromHSV 240 1 1 1 = Color.Blue := by
  refine ⟨fromHSV_extremes h s v alpha hs0 hs1 hv0, by simp [Color.fromHSV], ?_, ?_, ?_⟩
  · have hw : wrapHue 0 = 0 := wrapHue_eq_of 0 0 0 (le_refl _) (by norm_num) (by norm_num)
    have hf : fmod (0 / 60) 2 = 0 :=
      fmod_eq_of_nonneg _ _ 0 0 (by norm_num) (by norm_num) (le_refl _) (by norm_num)
        (by norm_num)
    unfold Color.fromHSV
    simp only [hw, hf]
    norm_num [hsvSector, Color.Red]
  · have hw : wrapHue 120 = 120 :=
      wrapHue_eq_of 120 120 0 (by norm_num) (by norm_num) (by norm_num)
    have hf : fmod (120 / 60) 2 = 0 :=
      fmod_eq_of_nonneg _ _ 0 1 (by norm_num) (by norm_num) (le_refl _) (by norm_num)
        (by norm_num)
    unfold Color.fromHSV
    simp only [hw, hf]
    norm_num [hsvSector, Color.Green]
  · have hw : wrapHue 240 = 240 :=
      wrapHue_eq_of 240 240 0 (by norm_num) (by norm_num) (by norm_num)
    have hf : fmod (240 / 60) 2 = 0 :=
      fmod_eq_of_nonneg _ _ 0 2 (by norm_num) (by norm_num) (le_refl _) (by norm_num)
        (by norm_num)
    unfold Color.fromHSV
    simp only [hw, hf]
    norm_num [hsvSector, Color.Blue]

/-- Witness for C18: hue -30, saturation 1/2, value 1. -/
theorem C18_hsv_extremes_witness :
    max (max (Color.fromHSV (-30) (1 / 2) 1 1).r (Color.fromHSV (-30) (1 / 2) 1 1).g)
        (Color.fromHSV (-30) (1 / 2) 1 1).b = 1 ∧
    min (min (Color.fromHSV (-30) (1 / 2) 1 1).r (Color.fromHSV (-30) (1 / 2) 1 1).g)
        (Color.fromHSV (-30) (1 / 2) 1 1).b = 1 * (1 - 1 / 2) := by
  have h := (C18_hsv_extremes (-30) (1 / 2) 1 1 (by norm_num) (by norm_num) (by norm_num)
    (by norm_num)).1
  exact ⟨h.1, h.2.1⟩

/-! ## C13 -/

/-- C13, as stated, fails: with `y` empty and an `x` of 201 elements the constructor
inside `plot` erases the iterator range `[begin, end - 200)` of the empty `yData`, which
is undefined; the call does not complete. -/
theorem C13_counterexample :
    (List.replicate 201 (0 : ℚ) = [] ∨ ([] : List ℚ) = []) ∧
    plot ⟨fun _ => some {}, []⟩ (some 0) (List.replicate 201 0) [] "" = none := by
  refine ⟨Or.inr rfl, ?_⟩
  have h1 : (List.replicate 201 (0 : ℚ)).length > 200 := by
    rw [List.length_replicate]; decide
  have h2 : ([] : List ℚ).length < 200 := by decide
  have h : LinePlot.new (List.replicate 201 0) [] 200 = none := by
    unfold LinePlot.new
    rw [if_pos h1, if_pos h2]
  unfold plot
  rw [h]

/-- C13, amended (empty series skips ranging). For every Axes state and every call
`plot(axes, x, y, style)` on a live Axes in which `x` or `y` is empty and `x` has at
most 200 elements, the call returns, the range of the Axes is unchanged, every other
Axes is untouched and the new series, holding `x` and `y`, is appended to the Axes'
children. -/
theorem C13_empty_series_skips_ranging (w : World) (id : Nat) (a : Axes) (x y : List ℚ)
    (style : String) (hlive : w.axes id = some a) (he : x = [] ∨ y = [])
    (hx : x.length ≤ 200) :
    ∃ h w1 a1 line, plot w (some id) x y style = some (h, w1) ∧
      w1.axes id = some a1 ∧ a1.range = a.range ∧
      a1.children = a.children ++ [h] ∧
      w1.plots.get? h = some line ∧ line.xData = x ∧ line.yData = y ∧
      (∀ j, j ≠ id → w1.axes j = w.axes j) := by
  refine ⟨_, _, a.addPlotObject w.plots.length,
    applyStyle (LinePlot.mk x y Color.Blue 2 LineStyle.LINE_SOLID
      MarkerStyle.MARKER_NONE Color.Red 5 200 true none) style,
    plot_of_some_empty w id a x y style hlive he hx, ?_, rfl, rfl, ?_, ?_, ?_, ?_⟩
  · simp [AxesHeap.set]
  · simp
  · rw [applyStyle_xData]
  · rw [applyStyle_yData]
  · intro j hj
    simp [AxesHeap.set, hj]

/-- Witness for C13 amended: the call of `osc.cpp`, `plot(axes, [], [], "b-")`, after
`setDataRange(-1.8, 1.8, -3, 3)`. -/
theorem C13_empty_series_skips_ranging_witness :
    ∃ h w1 a1, plot ⟨fun _ => some (({} : Axes).setDataRange (-1.8) 1.8 (-3) 3), []⟩
        (some 0) [] [] "b-" = some (h, w1) ∧
      w1.axes 0 = some a1 ∧ a1.range = (-1.8, 1.8, -3, 3) ∧ a1.children = [h] := by
  obtain ⟨h, w1, a1, line, h1, h2, h3, h4, _⟩ :=
    C13_empty_series_skips_ranging
      ⟨fun _ => some (({} : Axes).setDataRange (-1.8) 1.8 (-3) 3), []⟩ 0
      (({} : Axes).setDataRange (-1.8) 1.8 (-3) 3) [] [] "b-" rfl (Or.inl rfl) (by simp)
  exact ⟨h, w1, a1, h1, h2, h3, h4⟩

/-! ## C16 -/

/-- C16 fails on the code for the `plot` call. When `glfwInit()` fails, or when
`glfwCreateWindow` returns null, the constructor leaves `window` and `currentAxes`
null; `render()` is guarded and draws nothing, but `plot(fig.gca(), x, y, style)`
dereferences the null Axes pointer for every `x`, `y`, `style` and does not
complete. -/
theorem C16_plot_on_handleless_figure (w : World) (initDone : Bool) (win : Option Nat)
    (newAxes : Nat) (width height fbW fbH : Int) (m : LibM) (x y : List ℚ) (style : String) :
    ((Figure.new w false false win newAxes width height).fig.window = none ∧
      (Figure.new w false false win newAxes width height).fig.gca = none ∧
      Figure.render m (Figure.new w false false win newAxes width height).world
        (Figure.new w false false win newAxes width height).fig fbW fbH = some [] ∧
      plot (Figure.new w false false win newAxes width height).world
        (Figure.new w false false win newAxes width height).fig.gca x y style = none) ∧
    ((Figure.new w initDone true none newAxes width height).fig.window = none ∧
      (Figure.new w initDone true none newAxes width height).fig.gca = none ∧
      Figure.render m (Figure.new w initDone true none newAxes width height).world
        (Figure.new w initDone true none newAxes width height).fig fbW fbH = some [] ∧
      plot (Figure.new w initDone true none newAxes width height).world
        (Figure.new w initDone true none newAxes width height).fig.gca x y style = none) ∧
    plot (Figure.new w false false none 0 800 600).world
      (Figure.new w false false none 0 800 600).fig.gca [1] [1] "" = none := by
  have e1 : Figure.new w false false win newAxes width height
      = ⟨⟨none, none, width, height⟩, w, false, ["Failed to initialize GLFW\n"], []⟩ := by
    simp [Figure.new]
  have e2 : Figure.new w initDone true none newAxes width height
      = ⟨⟨none, none, width, height⟩, w, true, ["Failed to create GLFW window\n"], []⟩ := by
    simp [Figure.new]
  have e3 : Figure.new w false false none 0 800 600
      = ⟨⟨none, none, 800, 600⟩, w, false, ["Failed to initialize GLFW\n"], []⟩ := by
    simp [Figure.new]
  rw [e1, e2, e3]
  exact ⟨⟨rfl, rfl, rfl, plot_of_null _ _ _ _⟩, ⟨rfl, rfl, rfl, plot_of_null _ _ _ _⟩,
    plot_of_null _ _ _ _⟩

/-! ## C12 -/

/-- C12, as stated, fails: from a fresh Axes, `plot(axes, [1,2,3], [2,2,2])` sets the
range to `(0.9, 3.1, 2, 2)`; `yMax > yMin` does not hold. -/
theorem C12_counterexample :
    AxesHeap.Fresh (fun _ => some {}) ∧
    ∃ w a, World.run ⟨fun _ => some {}, []⟩ [Call.plot (some 0) [1, 2, 3] [2, 2, 2] ""]
        = some w ∧
      w.axes 0 = some a ∧ a.range = (0.9, 3.1, 2, 2) ∧ ¬ (a.dataYMax > a.dataYMin) := by
  constructor
  · intro id a ha
    simp only [Option.some.injEq] at ha
    subst ha
    rfl
  · obtain ⟨w1, a1, line, h1, h2, _, _, _, h6, _⟩ :=
      plot_frame_of_nonempty ⟨fun _ => some {}, []⟩ 0 {} [1, 2, 3] [2, 2, 2] "" _ _
        rfl rfl rfl rfl
    have hr : a1.range = (0.9, 3.1, 2, 2) := by
      rw [h6]
      simp only [marginRange, List.foldl, minmaxStep]
      norm_num
    obtain ⟨_, _, f3, f4⟩ := Axes.fields_of_range a1 _ hr
    simp only at f3 f4
    refine ⟨w1, a1, ?_, h2, hr, by rw [f3, f4]; norm_num⟩
    simp only [World.run, World.call, h1, Option.map_some']

/-- C12, amended (the range stays ordered). In every state reached from a world whose
Axes are fresh (range `-10 .. 10` on both axes) through `plot`, `appendData`,
`setMaxPoints` and `setAutoUpdateAxes` calls with arbitrary data, every Axes range
satisfies `xMax ≥ xMin` and `yMax ≥ yMin`. -/
theorem C12_range_stays_ordered (w0 w : World) (calls : List Call)
    (hf : w0.axes.Fresh) (hr : w0.run calls = some w) :
    ∀ id a, w.axes id = some a → a.dataXMax ≥ a.dataXMin ∧ a.dataYMax ≥ a.dataYMin :=
  World.run_ordered calls w0 w hf.ordered hr

/-- Witness for C12 amended: a two-sample `plot` followed by an `appendData` that
passes the Axes. -/
theorem C12_range_stays_ordered_witness :
    ∃ w, World.run ⟨fun _ => some {}, []⟩
        [Call.plot (some 0) [1, 2] [5, 3] "r", Call.appendData 0 4 4 (some 0)] = some w ∧
      ∀ id a, w.axes id = some a → a.dataXMax ≥ a.dataXMin ∧ a.dataYMax ≥ a.dataYMin := by
  have hfresh : AxesHeap.Fresh (fun _ => some ({} : Axes)) := by
    intro id a ha
    simp only [Option.some.injEq] at ha
    subst ha
    rfl
  obtain ⟨w1, a1, line, h1, h2, h3, h4, h5, _, _⟩ :=
    plot_frame_of_nonempty ⟨fun _ => some {}, []⟩ 0 {} [1, 2] [5, 3] "r" _ _ rfl rfl rfl rfl
  have hg : w1.plots.get? 0 = some line := by rw [h3]; rfl
  have hl : line.xData.length = line.yData.length := by rw [h4, h5]; rfl
  obtain ⟨r, hr⟩ := appendData_returns line w1.axes 4 4 (some 0) hl
  have hrun : World.run ⟨fun _ => some {}, []⟩
      [Call.plot (some 0) [1, 2] [5, 3] "r", Call.appendData 0 4 4 (some 0)]
      = some ⟨r.2, w1.plots.set 0 r.1⟩ := by
    simp only [World.run, World.call, h1, Option.map_some', World.appendData, hg, hr]
  exact ⟨_, hrun, C12_range_stays_ordered _ _ _ hfresh hrun⟩

/-! ## C19 -/

/-- C20 fails on the code once the capacity is lowered. The series constructed from
`x = y = [0,1,2]` with capacity 200, after `setMaxPoints(1)` and `appendData(3, 3)`,
buffers `[1,2,3]`: one sample was evicted, three remain, more than `maxPoints = 1`.
The two buffers do keep equal length. -/
theorem C20_buffer_exceeds_lowered_capacity :
    ∃ lp0 r, LinePlot.new [0, 1, 2] [0, 1, 2] 200 = some lp0 ∧
      runOps lp0 (fun _ => none) [SeriesOp.setMaxPoints 1, SeriesOp.appendData 3 3 none]
        = some r ∧
      r.1.xData = [1, 2, 3] ∧ r.1.yData = [1, 2, 3] ∧ r.1.maxPoints = 1 ∧
      ¬ (r.1.xData.length ≤ r.1.maxPoints) ∧ r.1.xData.length = r.1.yData.length := by
  have hnew := LinePlot.new_of_le [0, 1, 2] [0, 1, 2] 200 (by decide)
  obtain ⟨lp1, h1, _, _, hmax⟩ := appendData_of_unlinked
    ((LinePlot.mk [0, 1, 2] [0, 1, 2] Color.Blue 2 LineStyle.LINE_SOLID
      MarkerStyle.MARKER_NONE Color.Red 5 200 true none).setMaxPoints 1) (fun _ => none) 3 3 rfl
  obtain ⟨e1, e2, _, _⟩ := appendData_series _ _ _ _ _ _ h1
  have b1 : lp1.xData = [1, 2, 3] := by
    rw [e1]; simp [pushEvict, LinePlot.setMaxPoints]
  have b2 : lp1.yData = [1, 2, 3] := by
    rw [e2]; simp [pushEvict, LinePlot.setMaxPoints]
  refine ⟨_, (lp1, fun _ => none), hnew, ?_, b1, b2, hmax, ?_, ?_⟩
  · simp only [runOps, SeriesOp.apply, h1]
  · simp only [b1, hmax, LinePlot.setMaxPoints]
    decide
  · simp only [b1, b2]

end matplot
